import Mathlib

/-!
# Urho3D-Toolbox editor: file-system helpers, scene views and resource tabs

A shallow embedding of the editor glue code of the toolbox
(`Editor/Assets/FileSystemEx.cpp`, `Editor/Assets/ImportAssimp.cpp`,
`Editor/SceneView.cpp`, `Editor/Editor.cpp`, `Editor/Tabs/BaseResourceTab.cpp`,
`UIEditor/UIEditor.cpp`) together with the properties established about it.

The engine underneath the editor (file system, resource cache, path helpers,
scene serialisation) is not part of the toolbox.  Its primitives appear here as
fields of a record the embedded functions are parameterised by; a small
simulated engine instantiates the record so that every statement can be
evaluated on concrete inputs.
-/

namespace Urho3D

/-! ## Engine interface used by `FileSystemEx.cpp` -/

/-- Flags of the engine call `FileSystem::ScanDir`. -/
inductive ScanFlag where
  | SCAN_FILES
  | SCAN_DIRS
  | SCAN_HIDDEN
  deriving DecidableEq, Repr

/-- A mutating request sent to the operating system through the engine. -/
inductive FsCall where
  | createDir (path : String)
  | rename (source destination : String)
  | removeDir (nativePath : String)
  | deleteFile (path : String)
  deriving DecidableEq, Repr

/-- The engine primitives `FileSystemEx.cpp` calls.  The type `σ` is the state of
the disk.  Queries read the state, mutating primitives return their success flag
and the next state. -/
structure Engine (σ : Type) where
  /-- The engine query `FileSystem::DirExists`. -/
  DirExists : σ → String → Bool
  /-- The engine query `FileSystem::FileExists`. -/
  FileExists : σ → String → Bool
  /-- The engine call `FileSystem::CreateDir`. -/
  CreateDir : σ → String → Bool × σ
  /-- The engine call `FileSystem::Rename`. -/
  Rename : σ → String → String → Bool × σ
  /-- The engine call `FileSystem::Delete`. -/
  Delete : σ → String → Bool × σ
  /-- The engine call `FileSystem::ScanDir` with path, filter, flags, recursive. -/
  ScanDir : σ → String → String → List ScanFlag → Bool → List String
  /-- The C library call `remove` (or `RemoveDirectoryW`) on a native path, true on success. -/
  removeNative : σ → String → Bool × σ
  /-- The path helper `GetInternalPath`. -/
  GetInternalPath : String → String
  /-- The path helper `AddTrailingSlash`. -/
  AddTrailingSlash : String → String
  /-- The path helper `GetParentPath`. -/
  GetParentPath : String → String
  /-- The path helper `GetPath`. -/
  GetPath : String → String
  /-- The path helper `GetNativePath`. -/
  GetNativePath : String → String
  /-- The path helper `IsAbsolutePath`. -/
  IsAbsolutePath : String → Bool

/-- The part of the resource cache `RenameResource` reads. -/
structure ResourceCache where
  /-- Result of `GetPackageFiles()`. -/
  packageFiles : List String
  /-- Result of `GetResourceDirs()`. -/
  resourceDirs : List String
  /-- Result of `GetAllResources()`: for every resource group the names of its resources. -/
  allResources : List (List String)
  deriving DecidableEq, Repr

/-- The execution context: the disk, the mutating requests issued so far (oldest
first) and the resource cache. -/
structure Context (σ : Type) where
  disk : σ
  calls : List FsCall
  cache : ResourceCache

/-- Outcome of a function whose model can hit an `assert(0)`, exhaust the bound
put on an unbounded loop, or dereference a null resource pointer. -/
inductive Outcome (α : Type) where
  | returned (value : α)
  | assertFailed
  | outOfFuel
  | nullDereference

/-! ## `CreateDirsRecursive` -/

/-- The `while (true)` loop of `CreateDirsRecursive` (lines 26-34): starting from
`parentPath`, push `GetParentPath` of the current path until it has length zero.
Returns the pushed paths in push order, or `none` when `fuel` iterations did not
reach the `break`. -/
def collectParents {σ : Type} (E : Engine σ) : Nat → String → Option (List String)
  | 0, _ => none
  | fuel + 1, parentPath =>
    let parentPath1 := E.GetParentPath parentPath
    if parentPath1.length = 0 then some []
    else (collectParents E fuel parentPath1).map (fun rest => parentPath1 :: rest)

/-- The `for` loop of `CreateDirsRecursive` (lines 39-56) over the paths in the
order the loop visits them (index `Size() - 1` first). -/
def createLoop {σ : Type} (E : Engine σ) : List String → Context σ → Bool × Context σ
  | [], c => (true, c)
  | pathName :: rest, c =>
    if E.FileExists c.disk pathName then (false, c)
    else if E.DirExists c.disk pathName then createLoop E rest c
    else
      let r := E.CreateDir c.disk pathName
      let c1 : Context σ := { c with disk := r.2, calls := c.calls ++ [FsCall.createDir pathName] }
      if !r.1 then (false, c1)
      else if !E.DirExists c1.disk pathName then (false, c1)
      else createLoop E rest c1

/-- The normalised directory of line 12: `AddTrailingSlash(GetInternalPath(directoryIn))`. -/
def normalisedDir {σ : Type} (E : Engine σ) (directoryIn : String) : String :=
  E.AddTrailingSlash (E.GetInternalPath directoryIn)

/-- Embedding of `CreateDirsRecursive` (FileSystemEx.cpp lines 10-59).  `none`
means the `while (true)` loop did not finish within `fuel` iterations. -/
def CreateDirsRecursive {σ : Type} (E : Engine σ) (fuel : Nat) (directoryIn : String)
    (c : Context σ) : Option (Bool × Context σ) :=
  let directory := normalisedDir E directoryIn
  if E.DirExists c.disk directory then some (true, c)
  else if E.FileExists c.disk directory then some (false, c)
  else
    match collectParents E fuel directory with
    | none => none
    | some parents =>
      let paths := directory :: parents
      if paths.length = 0 then some (false, c)
      else some (createLoop E paths.reverse c)

/-! ## `RemoveDir` -/

/-- One `while (results.Remove(x)) {}` loop: `Vector::Remove` erases the first
occurrence and reports whether there was one.  `fuel` bounds the iterations. -/
def removeWhile : Nat → List String → String → List String
  | 0, results, _ => results
  | fuel + 1, results, x =>
    if results.contains x then removeWhile fuel (results.erase x) x else results

/-- The branch `if (!recursive)` of `RemoveDir` after the existence check
(lines 68-85). -/
def removeIfEmpty {σ : Type} (E : Engine σ) (directory : String) (c : Context σ) :
    Bool × Context σ :=
  let results := E.ScanDir c.disk directory "*"
    [ScanFlag.SCAN_DIRS, ScanFlag.SCAN_FILES, ScanFlag.SCAN_HIDDEN] true
  let results1 := removeWhile (results.length + 1) results "."
  let results2 := removeWhile (results1.length + 1) results1 ".."
  if results2.length ≠ 0 then (false, c)
  else
    let native := E.GetNativePath directory
    let r := E.removeNative c.disk native
    (r.1, { c with disk := r.2, calls := c.calls ++ [FsCall.removeDir native] })

/-- The loop of lines 89-93 deleting the files of one level. -/
def deleteLoop {σ : Type} (E : Engine σ) (directory : String) :
    List String → Context σ → Bool × Context σ
  | [], c => (true, c)
  | name :: rest, c =>
    let r := E.Delete c.disk (directory ++ name)
    let c1 : Context σ :=
      { c with disk := r.2, calls := c.calls ++ [FsCall.deleteFile (directory ++ name)] }
    if !r.1 then (false, c1) else deleteLoop E directory rest c1

/-- The loop of lines 98-105 over the scanned subfolders; `recurse` is the
recursive call `RemoveDir(directory + results[i], true, context)`. -/
def subdirLoop {σ : Type} (recurse : String → Context σ → Option (Bool × Context σ))
    (directory : String) : List String → Context σ → Option (Bool × Context σ)
  | [], c => some (true, c)
  | name :: rest, c =>
    if name == "." || name == ".." then subdirLoop recurse directory rest c
    else
      match recurse (directory ++ name) c with
      | none => none
      | some (ok, c1) =>
        if !ok then some (false, c1) else subdirLoop recurse directory rest c1

/-- Embedding of `RemoveDir` (FileSystemEx.cpp lines 61-108).  The recursion
into subfolders is bounded by `fuel`; the non-recursive call never consumes it. -/
def RemoveDir {σ : Type} (E : Engine σ) (fuel : Nat) (directoryIn : String)
    (recursive : Bool) (c : Context σ) : Option (Bool × Context σ) :=
  let directory := E.AddTrailingSlash directoryIn
  if !E.DirExists c.disk directory then some (false, c)
  else if !recursive then some (removeIfEmpty E directory c)
  else
    match fuel with
    | 0 => none
    | fuel1 + 1 =>
      let files := E.ScanDir c.disk directory "*"
        [ScanFlag.SCAN_FILES, ScanFlag.SCAN_HIDDEN] false
      let d := deleteLoop E directory files c
      if !d.1 then some (false, d.2)
      else
        let subdirs := E.ScanDir d.2.disk directory "*" [ScanFlag.SCAN_DIRS] false
        match subdirLoop (fun p c1 => RemoveDir E fuel1 p true c1) directory subdirs d.2 with
        | none => none
        | some (ok, c3) =>
          if !ok then some (false, c3)
          else
            let directory1 := E.AddTrailingSlash directory
            if !E.DirExists c3.disk directory1 then some (false, c3)
            else some (removeIfEmpty E directory1 c3)

/-! ## `RenameResource` -/

/-- The loop of lines 186-192: the last matching resource directory determines
`resourceName`. -/
def resourceNameOf (dirs : List String) (source : String) : String :=
  dirs.foldl (fun acc dir => if dir.isPrefixOf source then source.drop dir.length else acc) ""

/-- Embedding of `RenameResource` (FileSystemEx.cpp lines 144-232).  The body of
the loop over `GetAllResources()` ends in `assert(0)`, so reaching it with a
non-empty resource table is an assertion failure. -/
def RenameResource {σ : Type} (E : Engine σ) (fuel : Nat) (source destination : String)
    (c : Context σ) : Outcome (Bool × Context σ) :=
  if !c.cache.packageFiles.isEmpty then Outcome.returned (false, c)
  else if !E.IsAbsolutePath source || !E.IsAbsolutePath destination then
    Outcome.returned (false, c)
  else if !E.FileExists c.disk source && !E.DirExists c.disk source then
    Outcome.returned (false, c)
  else if E.FileExists c.disk destination || E.DirExists c.disk destination then
    Outcome.returned (false, c)
  else
    match CreateDirsRecursive E fuel (E.GetPath destination) c with
    | none => Outcome.outOfFuel
    | some (false, c1) => Outcome.returned (false, c1)
    | some (true, c1) =>
      let r := E.Rename c1.disk source destination
      let c2 : Context σ :=
        { c1 with disk := r.2, calls := c1.calls ++ [FsCall.rename source destination] }
      if !r.1 then Outcome.returned (false, c2)
      else if (resourceNameOf c2.cache.resourceDirs source).isEmpty then
        Outcome.returned (false, c2)
      else if c2.cache.allResources.length ≠ 0 then Outcome.assertFailed
      else Outcome.returned (true, c2)

/-! ## A simulated engine

A list-based disk and the engine's path helpers, written out so that the
embedded functions can be run on concrete inputs. -/

/-- A simulated disk: the paths that are files, the paths that are directories,
and the paths on which creating a directory is refused. -/
structure SimDisk where
  files : List String
  dirs : List String
  locked : List String
  deriving DecidableEq, Repr

/-- Replace every backslash by a forward slash. -/
def slashes (cs : List Char) : List Char :=
  cs.map (fun ch => if ch = Char.ofNat 92 then '/' else ch)

/-- Drop blanks and tabs at both ends (the engine method `String::Trimmed`). -/
def trimmed (cs : List Char) : List Char :=
  let blank : Char → Bool := fun ch => ch = ' ' || ch = Char.ofNat 9
  ((cs.dropWhile blank).reverse.dropWhile blank).reverse

/-- Character-level `AddTrailingSlash`. -/
def addSlash (cs : List Char) : List Char :=
  let ret := slashes (trimmed cs)
  match ret.getLast? with
  | none => ret
  | some ch => if ch = '/' then ret else ret ++ ['/']

/-- Character-level `RemoveTrailingSlash`. -/
def dropSlash (cs : List Char) : List Char :=
  let ret := slashes (trimmed cs)
  match ret.getLast? with
  | none => ret
  | some ch => if ch = '/' then ret.dropLast else ret

/-- Index of the last forward slash (the engine method `String::FindLast`). -/
def findLastSlash : List Char → Option Nat
  | [] => none
  | ch :: cs =>
    match findLastSlash cs with
    | some k => some (k + 1)
    | none => if ch = '/' then some 0 else none

/-- Character-level `GetParentPath`. -/
def parentChars (cs : List Char) : List Char :=
  match findLastSlash (dropSlash cs) with
  | none => []
  | some pos => cs.take (pos + 1)

/-- Character-level `GetPath`: everything up to and including the last slash. -/
def pathChars (cs : List Char) : List Char :=
  match findLastSlash (slashes cs) with
  | none => []
  | some pos => (slashes cs).take (pos + 1)

/-- The simulated engine over `SimDisk`. -/
def simEngine : Engine SimDisk where
  DirExists := fun d p => d.dirs.contains p
  FileExists := fun d p => d.files.contains (String.mk (dropSlash p.data))
  CreateDir := fun d p =>
    if d.locked.contains p then (false, d) else (true, { d with dirs := p :: d.dirs })
  Rename := fun d a b =>
    if d.files.contains a then
      (true, { d with files := b :: d.files.erase a })
    else if d.dirs.contains a then
      (true, { d with dirs := b :: d.dirs.erase a })
    else (false, d)
  Delete := fun d p =>
    if d.files.contains p then (true, { d with files := d.files.erase p }) else (false, d)
  ScanDir := fun d path _ flags _ =>
    let under : List String → List String := fun l =>
      (l.filter (fun q => path.data.isPrefixOf q.data && q != path)).map
        (fun q => String.mk (q.data.drop path.length))
    (if flags.contains ScanFlag.SCAN_DIRS then [".", ".."] ++ under d.dirs else []) ++
    (if flags.contains ScanFlag.SCAN_FILES then under d.files else [])
  removeNative := fun d p =>
    if d.dirs.contains p then (true, { d with dirs := d.dirs.erase p }) else (false, d)
  GetInternalPath := fun p => String.mk (slashes p.data)
  AddTrailingSlash := fun p => String.mk (addSlash p.data)
  GetParentPath := fun p => String.mk (parentChars p.data)
  GetPath := fun p => String.mk (pathChars p.data)
  GetNativePath := fun p => p
  IsAbsolutePath := fun p => (slashes p.data).head? = some '/'

/-- A disk holding the directory `/data/` and the file `/data/a.txt`. -/
def sampleDisk : SimDisk :=
  { files := ["/data/a.txt"], dirs := ["/", "/data/"], locked := [] }

/-- A context over `sampleDisk` with no package files and no request issued. -/
def sampleContext : Context SimDisk :=
  { disk := sampleDisk, calls := [],
    cache := { packageFiles := [], resourceDirs := ["/data/"], allResources := [] } }

/-! ## `Process` (ImportAssimp.cpp) -/

/-- The class `Process` of ImportAssimp.cpp (lines 41-60). -/
structure Process where
  /-- Path to a directory subprocess will execute in. -/
  subprocessDir_ : String
  /-- Full command to be executed. -/
  command_ : String
  /-- Subprocess output. -/
  output_ : String
  deriving DecidableEq, Repr

/-- The engine method `String::Replaced` for a one-character pattern. -/
def Replaced (s : String) (old : Char) (new : String) : String :=
  String.mk (s.data.flatMap (fun ch => if ch = old then new.data else [ch]))

/-- A double quote as a string. -/
def quote : String := String.singleton (Char.ofNat 34)

/-- A backslash followed by a double quote. -/
def escapedQuote : String := String.mk [Char.ofNat 92, Char.ofNat 34]

/-- The constructor `Process::Process` (lines 62-71); `nativePath` is the path
helper `GetNativePath`.  The members not assigned keep their initialisers. -/
def Process.new (nativePath : String → String) (command : String) (args : List String) :
    Process :=
  { subprocessDir_ := ".",
    command_ := args.foldl
      (fun acc arg => acc ++ quote ++ Replaced arg (Char.ofNat 34) escapedQuote ++ quote ++ " ")
      (quote ++ Replaced (nativePath command) (Char.ofNat 34) escapedQuote ++ quote ++ " "),
    output_ := "" }

/-- The accessor `Process::GetOutput` (line 51). -/
def Process.GetOutput (p : Process) : String := p.output_

/-- The read loop of `Process::Run` (lines 92-93): every chunk `fgets` delivers
is appended to the local string `output`. -/
def readLoop (chunks : List String) : String :=
  chunks.foldl (fun output buffer => output ++ buffer) ""

/-- The command line `Process::Run` hands to `popen` (lines 76-91). -/
def Process.commandLine (nativePath addTrailingSlash : String → String) (p : Process) :
    String :=
  let command :=
    if !p.subprocessDir_.isEmpty then
      "cd " ++ quote ++
        Replaced (nativePath (addTrailingSlash p.subprocessDir_)) (Char.ofNat 34) escapedQuote ++
        quote ++ ";" ++ p.command_
    else ""
  if command.isEmpty then p.command_ else command

/-- Embedding of `Process::Run` (lines 73-96, the branch compiled when `_WIN32`
is not set).  `popen` gives, for a command
line, the chunks `fgets` reads from the standard output of the subprocess and
the value of `pclose`.  The chunks are accumulated in the local variable
`output`, which goes out of scope at the `return`; no member is assigned. -/
def Process.Run (nativePath addTrailingSlash : String → String)
    (popen : String → List String × Int) (p : Process) : Int × Process :=
  let stream := popen (Process.commandLine nativePath addTrailingSlash p)
  let _output := readLoop stream.1
  (stream.2, p)

/-! ## `SceneView` (SceneView.cpp) -/

/-- The engine method `String::EndsWith(str, caseSensitive)`: false for an empty
or too long `str`, otherwise the comparison of the tail of `s` with `str`, both
lowered when `caseSensitive` is false. -/
def EndsWith (s str : String) (caseSensitive : Bool) : Bool :=
  let lower : List Char → List Char :=
    fun l => if caseSensitive then l else l.map Char.toLower
  !str.data.isEmpty && decide (str.data.length ≤ s.data.length) &&
    (lower (s.data.drop (s.data.length - str.data.length)) == lower str.data)

/-- A call a scene view makes on its scene. -/
inductive SceneCall where
  | loadXML (filePath : String)
  | loadJSON (filePath : String)
  | createEditorObjects
  | setElapsedTimeZero
  | restoreElapsedTime
  | openFileForWrite (fullPath : String)
  | saveXML (fullPath : String)
  | saveJSON (fullPath : String)
  deriving DecidableEq, Repr

/-- The engine type `IntVector2`. -/
structure IntVector2 where
  x_ : Int
  y_ : Int
  deriving DecidableEq, Repr

/-- The engine type `IntRect`. -/
structure IntRect where
  left_ : Int
  top_ : Int
  right_ : Int
  bottom_ : Int
  deriving DecidableEq, Repr

/-- The engine method `IntRect::IsInside(point)` compared with `INSIDE`. -/
def IntRect.IsInside (r : IntRect) (point : IntVector2) : Bool :=
  !(decide (point.x_ < r.left_) || decide (point.y_ < r.top_) ||
    decide (point.x_ ≥ r.right_) || decide (point.y_ ≥ r.bottom_))

/-- The window flag `ImGuiWindowFlags_NoMove` of the UI toolkit. -/
def ImGuiWindowFlags_NoMove : Nat := 4

/-- The level of a ray query sent to the octree of the scene. -/
inductive RayQueryLevel where
  | RAY_TRIANGLE
  | RAY_OBB
  deriving DecidableEq, Repr

/-- Modelled from the spec: the class `Gizmo` (Toolbox/SystemUI/Gizmo.h) is not
among the sources.  Its selection is a set of nodes, kept here as the list of
the identities of the selected nodes. -/
structure Gizmo where
  nodeSelection_ : List Nat
  deriving DecidableEq, Repr

/-- Modelled from the spec: `Gizmo::IsSelected`, membership in the selection. -/
def Gizmo.IsSelected (g : Gizmo) (node : Nat) : Bool := g.nodeSelection_.contains node

/-- Modelled from the spec: `Gizmo::Select` adds an unselected node to the
selection and reports whether the selection changed. -/
def Gizmo.Select (node : Nat) (g : Gizmo) : Bool × Gizmo :=
  if g.IsSelected node then (false, g)
  else (true, { nodeSelection_ := g.nodeSelection_ ++ [node] })

/-- Modelled from the spec: `Gizmo::Unselect` removes a selected node from the
selection and reports whether the selection changed. -/
def Gizmo.Unselect (node : Nat) (g : Gizmo) : Bool × Gizmo :=
  if !g.IsSelected node then (false, g)
  else (true, { nodeSelection_ := g.nodeSelection_.filter (fun m => m != node) })

/-- Modelled from the spec: `Gizmo::ToggleSelection` selects an unselected node
and unselects a selected one. -/
def Gizmo.ToggleSelection (node : Nat) (g : Gizmo) : Gizmo :=
  if g.IsSelected node then (g.Unselect node).2 else (g.Select node).2

/-- Modelled from the spec: `Gizmo::UnselectAll` empties the selection and
reports whether it held anything. -/
def Gizmo.UnselectAll (g : Gizmo) : Bool × Gizmo :=
  if g.nodeSelection_.isEmpty then (false, g) else (true, { nodeSelection_ := [] })

/-- Modelled from the spec: `Gizmo::ManipulateSelection` moves, rotates or scales
the selected nodes; the selection itself stays as it is. -/
def Gizmo.ManipulateSelection (g : Gizmo) : Gizmo := g

/-- The members of `SceneView` (SceneView.h) the embedded functions touch,
together with the object identity `handle`, the calls made on the scene and the
lines sent to the error log.  The members read or written by `RenderWindow`
start with the values the constructor leaves (the screen rectangle after
`SetScreenRect`); `rayQueries` lists the ray queries sent to the octree. -/
structure SceneView where
  /-- Identity of the object behind the shared pointer. -/
  handle : Nat
  /-- Scene title. Should be unique. -/
  title_ : String
  /-- Last resource path scene was loaded from or saved to. -/
  path_ : String
  /-- Scene dock is active and window is focused. -/
  isActive_ : Bool
  sceneCalls : List SceneCall
  errorLog : List String
  /-- Current screen rectangle at which scene texture is being rendered. -/
  screenRect_ : IntRect := { left_ := 0, top_ := 0, right_ := 1024, bottom_ := 768 }
  /-- Gizmo used for manipulating scene elements. -/
  gizmo_ : Gizmo := { nodeSelection_ := [] }
  /-- Current window flags. -/
  windowFlags_ : Nat := 0
  /-- Current selected component displayed in inspector. -/
  selectedComponent_ : Option Nat := none
  /-- Last known mouse position when it was visible. -/
  lastMousePosition_ : IntVector2 := { x_ := 0, y_ := 0 }
  /-- Flag set to true when dock contents were visible. -/
  wasRendered_ : Bool := false
  /-- Whether the settings window of the view is open. -/
  settingsOpen_ : Bool := false
  /-- Whether the elapsed time of the scene is saved with it. -/
  saveSceneElapsedTime_ : Bool := false
  rayQueries : List RayQueryLevel := []
  deriving DecidableEq, Repr

/-- The scene services `LoadScene` and `SaveScene` rely on. -/
structure SceneEngine where
  /-- Whether `GetCache()->GetResource` finds the resource (a non-null pointer). -/
  hasResource : String → Bool
  /-- Result of `Scene::LoadXML` on the root of the resource. -/
  loadXML : String → Bool
  /-- Result of `Scene::LoadJSON` on the root of the resource. -/
  loadJSON : String → Bool
  /-- The cache method `GetResourceFileName`. -/
  GetResourceFileName : String → String
  /-- Result of `Scene::SaveXML` into the file opened at the full path. -/
  saveXML : String → Bool
  /-- Result of `Scene::SaveJSON` into the file opened at the full path. -/
  saveJSON : String → Bool
  /-- The path helper `GetFileName`. -/
  GetFileName : String → String
  /-- The path helper `GetExtension`. -/
  GetExtension : String → String

/-- Embedding of `SceneView::CreateEditorObjects` as far as the model sees it. -/
def SceneView.CreateEditorObjects (v : SceneView) : SceneView :=
  { v with sceneCalls := v.sceneCalls ++ [SceneCall.createEditorObjects] }

/-- Embedding of `SceneView::LoadScene` (SceneView.cpp lines 194-221). -/
def SceneView.LoadScene (S : SceneEngine) (filePath : String) (v : SceneView) :
    Outcome SceneView :=
  if filePath.data.isEmpty then Outcome.returned v
  else if EndsWith filePath ".xml" false then
    if !S.hasResource filePath then Outcome.nullDereference
    else
      let v1 := { v with sceneCalls := v.sceneCalls ++ [SceneCall.loadXML filePath] }
      if S.loadXML filePath then
        Outcome.returned (SceneView.CreateEditorObjects { v1 with path_ := filePath })
      else
        Outcome.returned { v1 with errorLog := v1.errorLog ++
          ["Loading scene " ++ S.GetFileName filePath ++ " failed"] }
  else if EndsWith filePath ".json" false then
    if !S.hasResource filePath then Outcome.nullDereference
    else
      let v1 := { v with sceneCalls := v.sceneCalls ++ [SceneCall.loadJSON filePath] }
      if S.loadJSON filePath then
        Outcome.returned (SceneView.CreateEditorObjects { v1 with path_ := filePath })
      else
        Outcome.returned { v1 with errorLog := v1.errorLog ++
          ["Loading scene " ++ S.GetFileName filePath ++ " failed"] }
  else
    Outcome.returned { v with errorLog := v.errorLog ++
      ["Unknown scene file format " ++ S.GetExtension filePath] }

/-- The part of `SaveScene` from opening the file to the result check
(SceneView.cpp lines 225-243), with the result of the serialisation. -/
def SceneView.serialise (S : SceneEngine) (saveSceneElapsedTime_ : Bool) (fullPath : String)
    (v : SceneView) : Bool × SceneView :=
  let v0 := { v with sceneCalls := v.sceneCalls ++ [SceneCall.openFileForWrite fullPath] }
  let v1 := if !saveSceneElapsedTime_ then
      { v0 with sceneCalls := v0.sceneCalls ++ [SceneCall.setElapsedTimeZero] } else v0
  let r : Bool × SceneView :=
    if EndsWith fullPath ".xml" false then
      (S.saveXML fullPath, { v1 with sceneCalls := v1.sceneCalls ++ [SceneCall.saveXML fullPath] })
    else if EndsWith fullPath ".json" false then
      (S.saveJSON fullPath,
        { v1 with sceneCalls := v1.sceneCalls ++ [SceneCall.saveJSON fullPath] })
    else (false, v1)
  let v2 := if !saveSceneElapsedTime_ then
      { r.2 with sceneCalls := r.2.sceneCalls ++ [SceneCall.restoreElapsedTime] } else r.2
  (r.1, v2)

/-- Embedding of `SceneView::SaveScene` (SceneView.cpp lines 223-254). -/
def SceneView.SaveScene (S : SceneEngine) (saveSceneElapsedTime_ : Bool) (filePath : String)
    (v : SceneView) : Bool × SceneView :=
  let resourcePath := if filePath.data.isEmpty then v.path_ else filePath
  let fullPath := S.GetResourceFileName resourcePath
  let r := SceneView.serialise S saveSceneElapsedTime_ fullPath v
  if r.1 then
    if !filePath.data.isEmpty then (true, { r.2 with path_ := filePath }) else (true, r.2)
  else (false, { r.2 with errorLog := r.2.errorLog ++
    ["Saving scene to " ++ resourcePath ++ " failed."] })

/-! ## `Editor` (Editor.cpp) -/

/-- The members of `Editor` the embedded functions touch.  Pointers to scene
views are represented by the handle of the object; `allocated` counts the scene
views constructed so far and is the handle of the next one. -/
structure Editor where
  sceneViews_ : List SceneView
  lastActiveView_ : Option Nat
  activeView_ : Option Nat
  allocated : Nat
  deriving DecidableEq, Repr

/-- Decimal digits of `n`, least significant first; `fuel` bounds their number. -/
def digitsRev : Nat → Nat → List Nat
  | 0, _ => []
  | fuel + 1, n => if n < 10 then [n] else (n % 10) :: digitsRev fuel (n / 10)

/-- The decimal numeral of a natural number. -/
def formatNat (n : Nat) : String :=
  String.mk ((digitsRev (n + 1) n).reverse.map Nat.digitChar)

/-- The conversion `%d` of a C `int`. -/
def formatInt (i : Int) : String :=
  if i < 0 then "-" ++ formatNat i.natAbs else formatNat i.toNat

/-- The title `ToString("Scene#%d", index)`. -/
def sceneTitle (index : Int) : String := "Scene#" ++ formatInt index

/-- Increment of a C `int` reduced to 32 bits in two's complement. -/
def nextIndex (index : Int) : Int :=
  (index + 1 + 2147483648) % 4294967296 - 2147483648

/-- Embedding of `Editor::GetSceneView` (Editor.cpp lines 275-283) on the list of
views: the first view with the given title, if any. -/
def GetSceneView (sceneViews_ : List SceneView) (title : String) : Option SceneView :=
  sceneViews_.find? (fun view => view.title_ == title)

/-- The title search of `CreateNewScene` (lines 234-242), an unbounded `for`
loop: the first index from `index` on whose title no view carries.  `none` when
`fuel` iterations were not enough. -/
def findTitleIndex (sceneViews_ : List SceneView) : Nat → Int → Option Int
  | 0, _ => none
  | fuel + 1, index =>
    if (GetSceneView sceneViews_ (sceneTitle index)).isNone then some index
    else findTitleIndex sceneViews_ fuel (nextIndex index)

/-- Embedding of `Editor::CreateNewScene` (Editor.cpp lines 230-265).  The set-up
of the node that renders the view to a texture (lines 246-257) does not touch
the members modelled here.  The view is pushed before `LoadScene` runs on it, so
the list ends with the view as `LoadScene` leaves it. -/
def Editor.CreateNewScene (S : SceneEngine) (fuel : Nat) (_path : String) (e : Editor) :
    Outcome Editor :=
  let sceneView : SceneView :=
    { handle := e.allocated, title_ := "Scene", path_ := "", isActive_ := false,
      sceneCalls := [], errorLog := [] }
  match findTitleIndex e.sceneViews_ fuel 1 with
  | none => Outcome.outOfFuel
  | some index =>
    let sceneView1 := { sceneView with title_ := sceneTitle index }
    match SceneView.LoadScene S "Data/Scenes/SceneLoadExample.xml" sceneView1 with
    | Outcome.returned sceneView2 =>
      Outcome.returned
        { sceneViews_ := e.sceneViews_ ++ [sceneView2],
          lastActiveView_ :=
            if e.lastActiveView_.isNone then some sceneView2.handle else e.lastActiveView_,
          activeView_ := e.activeView_,
          allocated := e.allocated + 1 }
    | Outcome.assertFailed => Outcome.assertFailed
    | Outcome.outOfFuel => Outcome.outOfFuel
    | Outcome.nullDereference => Outcome.nullDereference

/-! ## `SceneView::RenderWindow` and `Editor::OnUpdate` -/

/-- What the UI toolkit, the input subsystem and the scene answer to one call of
`SceneView::RenderWindow`. -/
structure WindowFrame where
  /-- Result of `GetInput()->IsMouseVisible()`. -/
  mouseVisible : Bool
  /-- Result of `GetInput()->GetMousePosition()`. -/
  mousePosition : IntVector2
  /-- Result of `ui::BeginDock`: the contents of the dock are visible. -/
  dockVisible : Bool
  /-- Value `ui::BeginDock` leaves in `open`: false when the dock was closed. -/
  dockOpen : Bool
  /-- Whether the window has the focus when `RenderWindow` starts. -/
  windowFocused : Bool
  /-- Result of `ui::IsItemHovered()` for the scene image. -/
  itemHovered : Bool
  /-- Result of `ui::IsDockActive()`. -/
  dockActive : Bool
  /-- Result of `GetMouseButtonDown(MOUSEB_RIGHT)`. -/
  rightButtonDown : Bool
  /-- Result of `GetMouseButtonDown(MOUSEB_LEFT)`. -/
  leftButtonDown : Bool
  /-- Result of `GetMouseButtonPress(MOUSEB_LEFT)`. -/
  leftButtonPress : Bool
  /-- Result of `GetKeyDown(KEY_CTRL)`. -/
  ctrlDown : Bool
  /-- Result of `gizmo_.IsActive()`. -/
  gizmoActive : Bool
  /-- The rectangle computed from the window position and size, when the size
  is positive in both directions. -/
  windowRect : Option IntRect
  /-- Node of the closest hit of the triangle-level ray query, if any. -/
  triangleHit : Option Nat
  /-- Node of the closest hit of the bounding-box ray query, if any. -/
  boxHit : Option Nat
  /-- Result of `node->GetComponents()`. -/
  components : Nat → List Nat
  /-- Result of `ui::BeginPopup` for the context menu of the tab. -/
  popupOpen : Bool
  /-- Result of `ui::MenuItem("Settings")`. -/
  menuSettings : Bool
  /-- Result of `ui::MenuItem("Save")`. -/
  menuSave : Bool
  /-- Result of `ui::Begin("Scene Settings", ...)`. -/
  settingsVisible : Bool
  /-- Value `ui::Begin` leaves in `settingsOpen_`. -/
  settingsStillOpen : Bool
  /-- The text of the title field when `ui::InputText` reports a change. -/
  titleEdit : Option String
  /-- Value the check box leaves in `saveSceneElapsedTime_`. -/
  elapsedCheckbox : Bool → Bool

/-- The scene a view edits.  Every view constructs its own scene and never
replaces it, so the scene is identified by the handle of its view; the other
scenes of the program (such as the dummy scene of the editor) are `other`. -/
inductive SceneRef where
  | ofView (handle : Nat)
  | other (id : Nat)
  deriving DecidableEq, Repr

/-- The member `scene_` of a view. -/
def SceneView.scene_ (v : SceneView) : SceneRef := SceneRef.ofView v.handle

/-- Embedding of `SceneView::SetTitle` (SceneView.cpp lines 620-624); the member
`uniqueTitle_` is a function of the title and the identifier of the view. -/
def SceneView.SetTitle (title : String) (v : SceneView) : SceneView :=
  { v with title_ := title }

/-- Embedding of `SceneView::SetScreenRect` (SceneView.cpp lines 60-69) on the
members of the view. -/
def SceneView.SetScreenRect (rect : IntRect) (v : SceneView) : SceneView :=
  if rect = v.screenRect_ then v else { v with screenRect_ := rect }

/-- Embedding of `SceneView::OnNodeSelectionChanged` (SceneView.cpp lines
366-381), the handler of the selection event of the view. -/
def SceneView.OnNodeSelectionChanged (components : Nat → List Nat) (v : SceneView) :
    SceneView :=
  match v.gizmo_.nodeSelection_ with
  | [node] => { v with selectedComponent_ := (components node).head? }
  | _ => { v with selectedComponent_ := none }

/-- Embedding of `SceneView::Select` (SceneView.cpp lines 266-273). -/
def SceneView.Select (components : Nat → List Nat) (node : Nat) (v : SceneView) : SceneView :=
  let r := v.gizmo_.Select node
  if r.1 then SceneView.OnNodeSelectionChanged components { v with gizmo_ := r.2 }
  else { v with gizmo_ := r.2 }

/-- Embedding of `SceneView::ToggleSelection` (SceneView.cpp lines 284-289). -/
def SceneView.ToggleSelection (components : Nat → List Nat) (node : Nat) (v : SceneView) :
    SceneView :=
  SceneView.OnNodeSelectionChanged components
    { v with gizmo_ := v.gizmo_.ToggleSelection node }

/-- Embedding of `SceneView::UnselectAll` (SceneView.cpp lines 291-298). -/
def SceneView.UnselectAll (components : Nat → List Nat) (v : SceneView) : SceneView :=
  let r := v.gizmo_.UnselectAll
  if r.1 then SceneView.OnNodeSelectionChanged components { v with gizmo_ := r.2 }
  else { v with gizmo_ := r.2 }

/-- Embedding of `SceneView::IsSelected` (SceneView.cpp lines 361-364). -/
def SceneView.IsSelected (v : SceneView) (node : Nat) : Bool := v.gizmo_.IsSelected node

/-- The object selection of `RenderWindow` (SceneView.cpp lines 133-159): the
triangle-level query, the bounding-box query when the first found nothing, and
the change of the selection. -/
def SceneView.pickNode (f : WindowFrame) (v : SceneView) : SceneView :=
  let v1 := { v with rayQueries := v.rayQueries ++ [RayQueryLevel.RAY_TRIANGLE] }
  let second : Option Nat × SceneView :=
    if f.triangleHit.isNone then
      (f.boxHit, { v1 with rayQueries := v1.rayQueries ++ [RayQueryLevel.RAY_OBB] })
    else (f.triangleHit, v1)
  match second.1 with
  | some clickNode =>
    let v2 := if !f.ctrlDown then SceneView.UnselectAll f.components second.2 else second.2
    SceneView.ToggleSelection f.components clickNode v2
  | none => SceneView.UnselectAll f.components second.2

/-- Embedding of `SceneView::RenderSettingsWindow` (SceneView.cpp lines 443-535)
on the members of the view; the render path of the viewport is not modelled. -/
def SceneView.RenderSettingsWindow (f : WindowFrame) (v : SceneView) : SceneView :=
  if v.settingsOpen_ then
    let v1 := { v with settingsOpen_ := f.settingsStillOpen }
    if f.settingsVisible then
      let v2 := match f.titleEdit with
        | some title => SceneView.SetTitle title v1
        | none => v1
      { v2 with saveSceneElapsedTime_ := f.elapsedCheckbox v2.saveSceneElapsedTime_ }
    else v1
  else v

/-- The focus and activity part of `RenderWindow` (SceneView.cpp lines 82-106).
`SetWindowFocus` gives the window the focus at once, so the focus is carried
along as a local value. -/
def SceneView.updateActive (f : WindowFrame) (v : SceneView) : SceneView :=
  let focused1 := if !v.wasRendered_ then true else f.windowFocused
  let v1 := if !v.wasRendered_ then { v with wasRendered_ := true } else v
  if v1.screenRect_.IsInside v1.lastMousePosition_ then
    let focused2 :=
      if !focused1 && f.itemHovered && f.rightButtonDown then true else focused1
    if f.dockActive then { v1 with isActive_ := focused2 } else { v1 with isActive_ := false }
  else { v1 with isActive_ := false }

/-- The gizmo manipulation and the update of the screen rectangle in
`RenderWindow` (SceneView.cpp lines 108-123). -/
def SceneView.updateRect (f : WindowFrame) (v : SceneView) : SceneView :=
  let v1 := { v with gizmo_ := v.gizmo_.ManipulateSelection }
  if !f.leftButtonDown then
    match f.windowRect with
    | some newRect => SceneView.SetScreenRect newRect v1
    | none => v1
  else v1

/-- The handling of the hovered scene image in `RenderWindow` (SceneView.cpp
lines 125-163). -/
def SceneView.handleHover (f : WindowFrame) (v : SceneView) : SceneView :=
  if f.itemHovered then
    let v1 := { v with windowFlags_ := ImGuiWindowFlags_NoMove }
    if !f.gizmoActive && f.leftButtonPress then SceneView.pickNode f v1 else v1
  else { v with windowFlags_ := 0 }

/-- The context menu of the tab in `RenderWindow` (SceneView.cpp lines 165-180). -/
def SceneView.contextMenu (S : SceneEngine) (f : WindowFrame) (v : SceneView) : SceneView :=
  if f.popupOpen then
    let v1 := if f.menuSettings then { v with settingsOpen_ := true } else v
    if f.menuSave then (SceneView.SaveScene S v1.saveSceneElapsedTime_ "" v1).2 else v1
  else v

/-- The branch of `RenderWindow` taken when the dock is visible (SceneView.cpp
lines 82-180).  Drawing calls and calls on the camera do not feed back into the
members of the view and are left out. -/
def SceneView.renderDock (S : SceneEngine) (f : WindowFrame) (v : SceneView) : SceneView :=
  SceneView.contextMenu S f
    (SceneView.handleHover f (SceneView.updateRect f (SceneView.updateActive f v)))

/-- Embedding of `SceneView::RenderWindow` (SceneView.cpp lines 71-192): the
result is the value of `open`. -/
def SceneView.RenderWindow (S : SceneEngine) (f : WindowFrame) (v : SceneView) :
    Bool × SceneView :=
  let v1 := if f.mouseVisible then { v with lastMousePosition_ := f.mousePosition } else v
  let v2 :=
    if f.dockVisible then SceneView.renderDock S f v1
    else { v1 with isActive_ := false, wasRendered_ := false }
  (f.dockOpen, SceneView.RenderSettingsWindow f v2)

/-- A click in the hierarchy dock of the editor: on a node, with or without the
control key, or on a component of a node. -/
inductive TreeClick where
  | node (node : Nat) (ctrl : Bool)
  | component (node component : Nat)
  deriving DecidableEq, Repr

/-- What the UI toolkit answers to one call of `Editor::OnUpdate`. -/
structure EditorFrame where
  /-- Result of `ui::MenuItem("New Scene")` in the menu bar. -/
  menuNewScene : Bool
  /-- Result of `ui::BeginDock("Hierarchy")`. -/
  hierarchyVisible : Bool
  /-- The clicks on the entries of the hierarchy tree, in the order the tree is
  walked. -/
  hierarchyClicks : List TreeClick
  /-- Result of `node->GetComponents()`. -/
  components : Nat → List Nat
  /-- The answers to `RenderWindow` of the view with the given handle. -/
  windows : Nat → WindowFrame

/-- Modelled from the spec: the overload of `SceneView::Select` taking a
component, called by `Editor::RenderSceneNodeTree`, is not among the sources; it
records the component that is shown in the inspector. -/
def SceneView.SelectComponent (component : Nat) (v : SceneView) : SceneView :=
  { v with selectedComponent_ := some component }

/-- The effect on the last active view of one click handled by
`Editor::RenderSceneNodeTree` (Editor.cpp lines 204-222). -/
def SceneView.treeClick (components : Nat → List Nat) (click : TreeClick) (v : SceneView) :
    SceneView :=
  match click with
  | TreeClick.node node ctrl =>
    let v1 := if !ctrl then SceneView.UnselectAll components v else v
    SceneView.ToggleSelection components node v1
  | TreeClick.component node component =>
    SceneView.SelectComponent component
      (SceneView.ToggleSelection components node (SceneView.UnselectAll components v))

/-- The test `lastActiveView_.Expired()`: the views are owned by `sceneViews_`
alone, so a weak pointer has expired when no view of the list has its handle. -/
def Editor.expired (e : Editor) (ptr : Option Nat) : Bool :=
  match ptr with
  | none => true
  | some h => !(e.sceneViews_.any (fun view => view.handle == h))

/-- Embedding of `Editor::RenderMenuBar` (Editor.cpp lines 161-186) on the
members of the editor: the entry "New Scene" calls `CreateNewScene`.  The exit
entry and the gizmo buttons touch no member modelled here. -/
def Editor.RenderMenuBar (S : SceneEngine) (fuel : Nat) (f : EditorFrame) (e : Editor) :
    Outcome Editor :=
  if f.menuNewScene then Editor.CreateNewScene S fuel "" e else Outcome.returned e

/-- The hierarchy dock of `OnUpdate` (Editor.cpp lines 134-139): the clicks on
the tree change the selection of the last active view. -/
def Editor.renderHierarchy (f : EditorFrame) (e : Editor) : Editor :=
  if f.hierarchyVisible && !e.expired e.lastActiveView_ then
    { e with sceneViews_ := e.sceneViews_.map (fun view =>
        if some view.handle = e.lastActiveView_ then
          f.hierarchyClicks.foldl (fun w click => SceneView.treeClick f.components click w) view
        else view) }
  else e

/-- The loop of `OnUpdate` over the scene views (Editor.cpp lines 142-153).  The
first argument holds the views not yet visited; `sceneViews_` of the editor
holds the views already visited and kept. -/
def Editor.renderViews (S : SceneEngine) (windows : Nat → WindowFrame) :
    List SceneView → Editor → Editor
  | [], e => e
  | view :: rest, e =>
    let r := SceneView.RenderWindow S (windows view.handle) view
    if r.1 then
      let e1 := { e with sceneViews_ := e.sceneViews_ ++ [r.2] }
      if r.2.isActive_ then
        Editor.renderViews S windows rest
          { e1 with lastActiveView_ := some r.2.handle, activeView_ := some r.2.handle }
      else Editor.renderViews S windows rest e1
    else Editor.renderViews S windows rest e

/-- Embedding of `Editor::OnUpdate` (Editor.cpp lines 128-159).  The inspector
updated at the end is not modelled. -/
def Editor.OnUpdate (S : SceneEngine) (fuel : Nat) (f : EditorFrame) (e : Editor) :
    Outcome Editor :=
  match Editor.RenderMenuBar S fuel f e with
  | Outcome.returned e1 =>
    let e2 := Editor.renderHierarchy f e1
    Outcome.returned
      (Editor.renderViews S f.windows e2.sceneViews_
        { e2 with activeView_ := none, sceneViews_ := [] })
  | Outcome.assertFailed => Outcome.assertFailed
  | Outcome.outOfFuel => Outcome.outOfFuel
  | Outcome.nullDereference => Outcome.nullDereference

/-- Embedding of `Editor::Start` (Editor.cpp lines 60-82) on the members of the
editor: the update handler is subscribed and the first scene view is created.
The editor starts without views and with null pointers. -/
def Editor.Start (S : SceneEngine) (fuel : Nat) : Outcome Editor :=
  Editor.CreateNewScene S fuel ""
    { sceneViews_ := [], lastActiveView_ := none, activeView_ := none, allocated := 0 }

/-- Embedding of `Editor::IsActive` (Editor.cpp lines 267-273); `scene` is `none`
for the null pointer.  Dereferencing an expired `activeView_` is a null
dereference. -/
def Editor.IsActive (e : Editor) (scene : Option SceneRef) : Outcome Bool :=
  if scene.isNone || e.activeView_.isNone then Outcome.returned false
  else
    match e.sceneViews_.find? (fun view => some view.handle == e.activeView_) with
    | none => Outcome.nullDereference
    | some view => Outcome.returned (some view.scene_ == scene && view.isActive_)

/-! ## `Tab` and `BaseResourceTab` (Tab.cpp, BaseResourceTab.cpp) -/

/-- The simulation status of the preview tab (the enumeration returned by
`PreviewTab::GetSceneSimulationStatus`). -/
inductive SceneSimulationStatus where
  | SCENE_SIMULATION_STOPPED
  | SCENE_SIMULATION_RUNNING
  | SCENE_SIMULATION_PAUSED
  deriving DecidableEq, Repr

/-- The services a resource tab relies on: the undo manager over its state `U`
and the path helper `GetFileName`. -/
structure TabServices (U : Type) where
  /-- The undo manager method `Clear`. -/
  Clear : U → U
  /-- The undo manager method `Index`. -/
  Index : U → Int
  /-- The path helper `GetFileName`. -/
  GetFileName : String → String

/-- The members of `BaseResourceTab` (with those inherited from `Tab`) the
embedded functions touch. -/
structure BaseResourceTab (U : Type) where
  title_ : String
  id_ : String
  uniqueTitle_ : String
  isUtility_ : Bool
  resourceName_ : String
  pendingLoadResource_ : String
  lastUndoIndex_ : Int
  undo_ : U

/-- Embedding of `Tab::LoadResource` (Tab.cpp lines 227-231); `status` is the
simulation status of the preview tab. -/
def Tab.LoadResource (status : SceneSimulationStatus) (_resourcePath : String) : Bool :=
  status == SceneSimulationStatus.SCENE_SIMULATION_STOPPED

/-- Embedding of `Tab::SaveResource` (Tab.cpp lines 233-237). -/
def Tab.SaveResource (status : SceneSimulationStatus) : Bool :=
  status == SceneSimulationStatus.SCENE_SIMULATION_STOPPED

/-- Embedding of `Tab::SetTitle` with `UpdateUniqueTitle` (Tab.cpp lines 199-208). -/
def BaseResourceTab.SetTitle {U : Type} (title : String) (t : BaseResourceTab U) :
    BaseResourceTab U :=
  { t with title_ := title, uniqueTitle_ := title ++ "###" ++ t.id_ }

/-- Embedding of `BaseResourceTab::SetResourceName` (BaseResourceTab.cpp lines 91-96). -/
def BaseResourceTab.SetResourceName {U : Type} (K : TabServices U) (resourceName : String)
    (t : BaseResourceTab U) : BaseResourceTab U :=
  let t1 := { t with resourceName_ := resourceName }
  if !t1.isUtility_ then BaseResourceTab.SetTitle (K.GetFileName t1.resourceName_) t1 else t1

/-- Embedding of `BaseResourceTab::IsModified` (BaseResourceTab.cpp lines 98-101). -/
def BaseResourceTab.IsModified {U : Type} (K : TabServices U) (t : BaseResourceTab U) : Bool :=
  t.lastUndoIndex_ != K.Index t.undo_

/-- Embedding of `BaseResourceTab::LoadResource` (BaseResourceTab.cpp lines 46-64). -/
def BaseResourceTab.LoadResource {U : Type} (K : TabServices U)
    (status : SceneSimulationStatus) (resourcePath : String) (t : BaseResourceTab U) :
    Bool × BaseResourceTab U :=
  if !Tab.LoadResource status resourcePath then (false, t)
  else if resourcePath.data.isEmpty then (false, t)
  else if BaseResourceTab.IsModified K t then
    (false, { t with pendingLoadResource_ := resourcePath })
  else
    let t1 := BaseResourceTab.SetResourceName K resourcePath t
    let t2 := { t1 with undo_ := K.Clear t1.undo_ }
    (true, { t2 with lastUndoIndex_ := K.Index t2.undo_ })

/-- Embedding of `BaseResourceTab::SaveResource` (BaseResourceTab.cpp lines 66-77). -/
def BaseResourceTab.SaveResource {U : Type} (K : TabServices U)
    (status : SceneSimulationStatus) (t : BaseResourceTab U) : Bool × BaseResourceTab U :=
  if !Tab.SaveResource status then (false, t)
  else if t.resourceName_.data.isEmpty then (false, t)
  else (true, { t with lastUndoIndex_ := K.Index t.undo_ })

/-- A simple undo manager state: the recorded actions and the current index. -/
structure UndoStack where
  stack : List String
  index : Int
  deriving DecidableEq, Repr

/-- Tab services over `UndoStack`; the file name is taken to be the whole path. -/
def sampleServices : TabServices UndoStack :=
  { Clear := fun _ => { stack := [], index := 0 },
    Index := fun u => u.index,
    GetFileName := fun p => p }

/-- A tab showing `a.scene` with two recorded actions, saved after the first. -/
def sampleTab : BaseResourceTab UndoStack :=
  { title_ := "a.scene", id_ := "id", uniqueTitle_ := "a.scene###id", isUtility_ := false,
    resourceName_ := "a.scene", pendingLoadResource_ := "", lastUndoIndex_ := 1,
    undo_ := { stack := ["move", "scale"], index := 2 } }

/-! ## `UIEditor::SaveFileUI` (UIEditor.cpp) -/

/-- What an XML element node carries: the address of the node (its identity),
its tag name and its attributes in order. -/
structure XMLData where
  ptr : Nat
  name : String
  attrs : List (String × String)
  deriving DecidableEq, Repr

/-- A sequence of sibling XML element nodes with their subtrees, linked the way
the XML library links them: every node has its first child and its next
sibling.  A document is the sequence of the children of the document node. -/
inductive XMLNodes where
  | nil
  | node (d : XMLData) (children siblings : XMLNodes)
  deriving DecidableEq, Repr

/-- All nodes in document order. -/
def XMLNodes.nodes : XMLNodes → List XMLData
  | XMLNodes.nil => []
  | XMLNodes.node d children siblings => d :: (children.nodes ++ siblings.nodes)

/-- The node test and predicate of the query `//element[@internal="true"]`: the
tag is `element` and an attribute `internal` has the value `true`. -/
def isInternalElement (d : XMLData) : Bool :=
  d.name == "element" && d.attrs.contains ("internal", "true")

/-- Result set of `SelectPrepared` for the query `//element[@internal="true"]`:
the query starts with `//`, so it selects among all element nodes of the
document; the results are node addresses in document order. -/
def SelectInternal (doc : XMLNodes) : List Nat :=
  (doc.nodes.filter isInternalElement).map (fun d => d.ptr)

/-- Outcome of an operation on the XML document: its value, or the use of a node
that has already been destroyed. -/
inductive XMLOutcome (α : Type) where
  | done (value : α)
  | useAfterFree
  deriving DecidableEq, Repr

/-- Whether the node with address `el` is part of the document.  The XML library
destroys a removed node together with its subtree, so a handle to a node that is
no longer part of the document points to freed memory. -/
def XMLNodes.isLive (doc : XMLNodes) (el : Nat) : Bool :=
  doc.nodes.any (fun d => d.ptr == el)

/-- The document with the node at address `el` unlinked together with its
subtree. -/
def unlinkNode (el : Nat) : XMLNodes → XMLNodes
  | XMLNodes.nil => XMLNodes.nil
  | XMLNodes.node d children siblings =>
    if d.ptr = el then unlinkNode el siblings
    else XMLNodes.node d (unlinkNode el children) (unlinkNode el siblings)

/-- The call `el.GetParent().RemoveChild(el)`: the node at address `el` is
unlinked and destroyed together with its subtree.  Through a handle to a node
that was destroyed before, the call reads and unlinks freed memory. -/
def RemoveChild (el : Nat) (doc : XMLNodes) : XMLOutcome XMLNodes :=
  if doc.isLive el then XMLOutcome.done (unlinkNode el doc) else XMLOutcome.useAfterFree

/-- Remove the first attribute called `name` from an attribute list. -/
def eraseAttribute (name : String) : List (String × String) → List (String × String)
  | [] => []
  | a :: rest => if a.1 = name then rest else a :: eraseAttribute name rest

/-- The document with the first attribute called `name` removed from the node
at address `el`. -/
def eraseAttributeAt (el : Nat) (name : String) : XMLNodes → XMLNodes
  | XMLNodes.nil => XMLNodes.nil
  | XMLNodes.node d children siblings =>
    XMLNodes.node (if d.ptr = el then { d with attrs := eraseAttribute name d.attrs } else d)
      (eraseAttributeAt el name children) (eraseAttributeAt el name siblings)

/-- The call `el.RemoveAttribute(name)`.  Through a handle to a node that was
destroyed before, the call reads and unlinks attributes of freed memory. -/
def RemoveAttribute (el : Nat) (name : String) (doc : XMLNodes) : XMLOutcome XMLNodes :=
  if doc.isLive el then XMLOutcome.done (eraseAttributeAt el name doc)
  else XMLOutcome.useAfterFree

/-- A loop `for (auto el = result.FirstResult(); el.NotNull(); el = el.NextResult())`
over a result set, applying `step` to every result in order.  The result set
was computed before the loop and is not updated by it. -/
def forEachResult (step : Nat → XMLNodes → XMLOutcome XMLNodes) :
    List Nat → XMLNodes → XMLOutcome XMLNodes
  | [], doc => XMLOutcome.done doc
  | el :: rest, doc =>
    match step el doc with
    | XMLOutcome.done doc1 => forEachResult step rest doc1
    | XMLOutcome.useAfterFree => XMLOutcome.useAfterFree

/-- What `rootElement_->GetChild(0)->SaveXML(root)` leaves behind: its result and
the address, attributes and children of the root node it wrote into. -/
structure SavedXML where
  ok : Bool
  ptr : Nat
  attrs : List (String × String)
  children : XMLNodes
  deriving DecidableEq, Repr

/-- The document after `CreateRoot("element")` and `SaveXML(root)`. -/
def SavedXML.document (s : SavedXML) : XMLNodes :=
  XMLNodes.node { ptr := s.ptr, name := "element", attrs := s.attrs } s.children XMLNodes.nil

/-- The members of `UIEditor` touched by `SaveFileUI`, the documents handed to
files for writing and the message boxes shown. -/
structure UIEditor where
  currentFilePath_ : String
  written : List (String × XMLNodes)
  messages : List String
  deriving DecidableEq, Repr

/-- Embedding of `UIEditor::SaveFileUI` (UIEditor.cpp lines 717-746).  The first
loop removes the results of the first query one by one.  The result of the
second query is not stored, so the second loop runs over `result` again, that
is over the nodes the first loop has destroyed.  `UpdateWindowTitle` only
changes the caption of the window and is left out. -/
def UIEditor.SaveFileUI (saved : SavedXML) (file_path : String) (u : UIEditor) :
    XMLOutcome (Bool × UIEditor) :=
  let failed : Bool × UIEditor :=
    (false, { u with messages := u.messages ++ ["Saving UI file failed"] })
  if EndsWith file_path ".xml" false then
    if saved.ok then
      let doc0 := saved.document
      let result := SelectInternal doc0
      match forEachResult (fun el doc => RemoveChild el doc) result doc0 with
      | XMLOutcome.useAfterFree => XMLOutcome.useAfterFree
      | XMLOutcome.done doc1 =>
        let _styleNone := (doc1.nodes.filter (fun d =>
          d.name == "element" && d.attrs.contains ("style", "none"))).map (fun d => d.ptr)
        match forEachResult (fun el doc => RemoveAttribute el "style" doc) result doc1 with
        | XMLOutcome.useAfterFree => XMLOutcome.useAfterFree
        | XMLOutcome.done doc2 =>
          XMLOutcome.done (true, { u with written := u.written ++ [(file_path, doc2)],
                                          currentFilePath_ := file_path })
    else XMLOutcome.done failed
  else XMLOutcome.done failed

/-- The model of the engine call `CreateDir` under which `CreateDirsRecursive` is
specified: a successful `CreateDir(p)` makes `p` a directory and changes the
status of no other path. -/
structure CreateDirModel {σ : Type} (E : Engine σ) : Prop where
  makes_dir : ∀ d p, (E.CreateDir d p).1 = true → E.DirExists (E.CreateDir d p).2 p = true
  dirs_else : ∀ d p q, (E.CreateDir d p).1 = true → q ≠ p →
    E.DirExists (E.CreateDir d p).2 q = E.DirExists d q
  files_else : ∀ d p q, (E.CreateDir d p).1 = true → q ≠ p →
    E.FileExists (E.CreateDir d p).2 q = E.FileExists d q

/-- A subprocess that prints two chunks and exits with code 0. -/
def echoProcess : String → List String × Int := fun _ => (["hello ", "world\n"], 0)

/-- A scene engine whose resources exist, whose XML load succeeds and whose
JSON load and JSON save fail. -/
def sampleSceneEngine : SceneEngine :=
  { hasResource := fun _ => true,
    loadXML := fun _ => true,
    loadJSON := fun _ => false,
    GetResourceFileName := fun p => "/res/" ++ p,
    saveXML := fun _ => true,
    saveJSON := fun _ => false,
    GetFileName := fun p => p,
    GetExtension := fun p => p }

/-- A scene view titled "Scene" whose scene was last saved to `old.xml`. -/
def sampleView : SceneView :=
  { handle := 0, title_ := "Scene", path_ := "old.xml", isActive_ := false,
    sceneCalls := [], errorLog := [] }

/-- Value of a list of decimal digits, least significant first. -/
def digitsValue : List Nat → Nat
  | [] => 0
  | d :: ds => d + 10 * digitsValue ds

/-- An editor with two views titled "Scene#1" and "Scene#3". -/
def sampleEditor : Editor :=
  { sceneViews_ := [{ sampleView with title_ := "Scene#1" },
      { sampleView with handle := 1, title_ := "Scene#3" }],
    lastActiveView_ := none, activeView_ := none, allocated := 2 }

/-- The handle of the last view of a list that has `isActive_` set, if any. -/
def lastActive (views : List SceneView) : Option Nat :=
  ((views.filter (fun w => w.isActive_)).getLast?).map (fun w => w.handle)

/-- The conditions under which `RenderWindow` handles a click on the scene image:
the dock is visible, the image is hovered, the gizmo is not active and the left
mouse button was pressed. -/
def WindowFrame.click (f : WindowFrame) : Bool :=
  f.dockVisible && f.itemHovered && !f.gizmoActive && f.leftButtonPress

/-- The node a click hits: the hit of the triangle-level query, and without one
the hit of the bounding-box query. -/
def WindowFrame.hit (f : WindowFrame) : Option Nat :=
  if f.triangleHit.isSome then f.triangleHit else f.boxHit

/-- A frame in which nothing is visible, hovered, pressed or hit. -/
def idleFrame : WindowFrame :=
  { mouseVisible := false, mousePosition := { x_ := 0, y_ := 0 }, dockVisible := false,
    dockOpen := true, windowFocused := false, itemHovered := false, dockActive := false,
    rightButtonDown := false, leftButtonDown := false, leftButtonPress := false,
    ctrlDown := false, gizmoActive := false, windowRect := none, triangleHit := none,
    boxHit := none, components := fun _ => [], popupOpen := false, menuSettings := false,
    menuSave := false, settingsVisible := false, settingsStillOpen := true,
    titleEdit := none, elapsedCheckbox := fun b => b }

/-- A left click on the scene image whose ray misses the triangles of every
object and hits the bounding box of node 7. -/
def clickFrame : WindowFrame :=
  { idleFrame with
    mouseVisible := true, mousePosition := { x_ := 10, y_ := 10 },
    dockVisible := true, windowFocused := true, itemHovered := true, dockActive := true,
    leftButtonDown := true, leftButtonPress := true, boxHit := some 7 }

/-- A view in which the nodes 3 and 7 are selected. -/
def selectedView : SceneView :=
  { sampleView with gizmo_ := { nodeSelection_ := [3, 7] } }

/-- A frame of the editor in which the view with handle 0 is closed and the view
with handle 1 is clicked. -/
def sampleEditorFrame : EditorFrame :=
  { menuNewScene := false, hierarchyVisible := false, hierarchyClicks := [],
    components := fun _ => [],
    windows := fun h => if h = 1 then clickFrame else { idleFrame with dockOpen := false } }

/-- The views of a list whose `RenderWindow` returns true, as `RenderWindow`
leaves them and in the order of the list. -/
def Editor.keptViews (S : SceneEngine) (windows : Nat → WindowFrame)
    (views : List SceneView) : List SceneView :=
  ((views.map (fun view => SceneView.RenderWindow S (windows view.handle) view)).filter
    (fun r => r.1)).map (fun r => r.2)

/-! ## Properties of `FileSystemEx.cpp` -/

/-- C1: `RenameResource` returns false and leaves the context untouched (same
disk, no directory creation and no rename requested) whenever package files are
in use, source or destination is not absolute, the source exists neither as a
file nor as a directory, or the destination exists as a file or as a directory. -/
theorem RenameResource_rejects {σ : Type} (E : Engine σ) (fuel : Nat)
    (source destination : String) (c : Context σ)
    (h : c.cache.packageFiles ≠ [] ∨ E.IsAbsolutePath source = false ∨
      E.IsAbsolutePath destination = false ∨
      (E.FileExists c.disk source = false ∧ E.DirExists c.disk source = false) ∨
      E.FileExists c.disk destination = true ∨ E.DirExists c.disk destination = true) :
    RenameResource E fuel source destination c = Outcome.returned (false, c) := by
  unfold RenameResource
  by_cases h1 : c.cache.packageFiles = []
  · by_cases h2 : E.IsAbsolutePath source = true
    · by_cases h3 : E.IsAbsolutePath destination = true
      · by_cases h4 : E.FileExists c.disk source = false ∧ E.DirExists c.disk source = false
        · simp [h1, h2, h3, h4.1, h4.2]
        · have h5 : E.FileExists c.disk destination = true ∨
              E.DirExists c.disk destination = true := by
            rcases h with h | h | h | h | h | h
            · exact absurd h1 h
            · simp [h2] at h
            · simp [h3] at h
            · exact absurd h h4
            · exact Or.inl h
            · exact Or.inr h
          rcases h5 with h5 | h5 <;> simp [h1, h2, h3, h5]
      · simp [h1, h2, h3]
    · simp [h1, h2]
  · have : c.cache.packageFiles.isEmpty = false := by
      cases hp : c.cache.packageFiles with
      | nil => exact absurd hp h1
      | cons a l => rfl
    simp [this]

/-- Witness for C1: a relative source path is rejected on the sample disk. -/
theorem RenameResource_rejects_witness :
    RenameResource simEngine 8 "data/a.txt" "/data/b.txt" sampleContext
      = Outcome.returned (false, sampleContext) :=
  RenameResource_rejects simEngine 8 "data/a.txt" "/data/b.txt" sampleContext
    (Or.inr (Or.inl (by decide)))

/-- Erasing the first occurrence of `x` does not change what remains once every
`x` is filtered out. -/
theorem filter_ne_erase (l : List String) (x : String) :
    (l.erase x).filter (fun y => y != x) = l.filter (fun y => y != x) := by
  induction l with
  | nil => rfl
  | cons a l ih =>
    by_cases h : a = x
    · subst h
      simp
    · have h1 : (a == x) = false := by simpa using h
      simp [List.erase_cons, h1, ih, List.filter_cons]

/-- With enough fuel the `while (results.Remove(x)) {}` loop removes every
occurrence of `x` and nothing else. -/
theorem removeWhile_eq_filter (fuel : Nat) (l : List String) (x : String)
    (h : l.count x < fuel) : removeWhile fuel l x = l.filter (fun y => y != x) := by
  induction fuel generalizing l with
  | zero => omega
  | succ n ih =>
    unfold removeWhile
    by_cases hx : x ∈ l
    · have hc : (l.erase x).count x < n := by
        have := List.count_erase_self x l
        have hpos : 0 < l.count x := List.count_pos_iff.mpr hx
        omega
      simp [hx, ih _ hc, filter_ne_erase]
    · have : l.filter (fun y => y != x) = l := by
        apply List.filter_eq_self.mpr
        intro a ha
        have : a ≠ x := fun e => hx (e ▸ ha)
        simpa using this
      simp [hx, this]

/-- The loop started with `Size() + 1` iterations of fuel is the filter. -/
theorem removeWhile_length (l : List String) (x : String) :
    removeWhile (l.length + 1) l x = l.filter (fun y => y != x) :=
  removeWhile_eq_filter _ l x (Nat.lt_succ_of_le (List.count_le_length x l))

/-- What is left of a scan after both removal loops. -/
theorem scan_leftover (l : List String) :
    removeWhile ((removeWhile (l.length + 1) l ".").length + 1)
      (removeWhile (l.length + 1) l ".") ".."
      = l.filter (fun y => y != "." && y != "..") := by
  rw [removeWhile_length l ".", removeWhile_length, List.filter_filter]
  congr 1
  funext y
  exact Bool.and_comm _ _

/-- C2: the non-recursive `RemoveDir`.  Let `scan` be the recursive scan of the
directory for files, directories and hidden entries.  (1) If the directory does
not exist, or it exists and `scan` has an entry other than "." and "..", the
call returns false with the context unchanged: nothing is removed.  (2) If the
directory exists and `scan` has no such entry, the call issues exactly one
removal request, for the directory itself, and returns its result.  (3) Hence a
removal request is only ever issued when the directory exists and `scan` holds
nothing but "." and "..". -/
theorem RemoveDir_nonrecursive {σ : Type} (E : Engine σ) (fuel : Nat)
    (directoryIn : String) (c : Context σ) :
    let directory := E.AddTrailingSlash directoryIn
    let scan := E.ScanDir c.disk directory "*"
      [ScanFlag.SCAN_DIRS, ScanFlag.SCAN_FILES, ScanFlag.SCAN_HIDDEN] true
    let leftover := ∃ e ∈ scan, e ≠ "." ∧ e ≠ ".."
    ((E.DirExists c.disk directory = false ∨ leftover) →
      RemoveDir E fuel directoryIn false c = some (false, c)) ∧
    ((E.DirExists c.disk directory = true ∧ ¬ leftover) →
      RemoveDir E fuel directoryIn false c
        = some ((E.removeNative c.disk (E.GetNativePath directory)).1,
            { c with disk := (E.removeNative c.disk (E.GetNativePath directory)).2,
                     calls := c.calls ++ [FsCall.removeDir (E.GetNativePath directory)] })) ∧
    (∀ r, RemoveDir E fuel directoryIn false c = some r → r.2.calls ≠ c.calls →
      E.DirExists c.disk directory = true ∧ ∀ e ∈ scan, e = "." ∨ e = "..") := by
  intro directory scan leftover
  have hleft : (scan.filter (fun y => y != "." && y != "..")).length ≠ 0 ↔ leftover := by
    constructor
    · intro h
      have hne : scan.filter (fun y => y != "." && y != "..") ≠ [] := by
        intro e
        exact h (by simp [e])
      obtain ⟨e, he⟩ := List.exists_mem_of_ne_nil _ hne
      have := List.mem_filter.mp he
      exact ⟨e, this.1, by simpa using this.2⟩
    · rintro ⟨e, he, h1, h2⟩ h
      have hmem : e ∈ scan.filter (fun y => y != "." && y != "..") :=
        List.mem_filter.mpr ⟨he, by simp [h1, h2]⟩
      have := List.length_pos_of_mem hmem
      omega
  have hrun : RemoveDir E fuel directoryIn false c =
      if E.DirExists c.disk directory = true then
        some (if (scan.filter (fun y => y != "." && y != "..")).length ≠ 0 then (false, c)
         else ((E.removeNative c.disk (E.GetNativePath directory)).1,
            { c with disk := (E.removeNative c.disk (E.GetNativePath directory)).2,
                     calls := c.calls ++ [FsCall.removeDir (E.GetNativePath directory)] }))
      else some (false, c) := by
    unfold RemoveDir removeIfEmpty
    simp only [scan_leftover]
    by_cases hd : E.DirExists c.disk directory = true
    · simp only [directory] at hd
      simp [hd, directory, scan]
    · simp only [directory] at hd
      simp [hd, directory]
  refine ⟨?_, ?_, ?_⟩
  · rintro (h | h)
    · rw [hrun]; simp [h]
    · rw [hrun]
      by_cases hd : E.DirExists c.disk directory = true
      · simp only [hd, if_true, if_pos (hleft.mpr h)]
      · simp [hd]
  · rintro ⟨hd, hl⟩
    rw [hrun]
    have : ¬ (scan.filter (fun y => y != "." && y != "..")).length ≠ 0 := fun h => hl (hleft.mp h)
    simp only [hd, if_true, if_neg this]
  · intro r hr hcalls
    rw [hrun] at hr
    by_cases hd : E.DirExists c.disk directory = true
    · refine ⟨hd, ?_⟩
      by_cases hl : leftover
      · simp only [hd, if_true, if_pos (hleft.mpr hl)] at hr
        cases hr
        exact absurd rfl hcalls
      · intro e he
        by_contra hne
        push_neg at hne
        exact hl ⟨e, he, hne.1, hne.2⟩
    · simp only [hd] at hr
      simp at hr
      subst hr
      exact absurd rfl hcalls

/-- Witness for C2: on the sample disk `/data/` holds a file, so the
non-recursive call refuses and changes nothing. -/
theorem RemoveDir_nonrecursive_witness :
    RemoveDir simEngine 0 "/data" false sampleContext = some (false, sampleContext) :=
  (RemoveDir_nonrecursive simEngine 0 "/data" sampleContext).1
    (Or.inr ⟨"a.txt", by decide, by decide, by decide⟩)

/-- The simulated engine satisfies the `CreateDir` model. -/
theorem simEngine_createDirModel : CreateDirModel simEngine := by
  refine ⟨?_, ?_, ?_⟩
  · intro d p h
    by_cases hl : p ∈ d.locked <;> simp_all [simEngine]
  · intro d p q h hq
    by_cases hl : p ∈ d.locked <;> simp_all [simEngine]
  · intro d p q h _
    by_cases hl : p ∈ d.locked <;> simp_all [simEngine]

/-- When the creation loop reports success, the last path it visited is a
directory in the final state. -/
theorem createLoop_true_last {σ : Type} (E : Engine σ) (init : List String) (p : String)
    (c c1 : Context σ) (h : createLoop E (init ++ [p]) c = (true, c1)) :
    E.DirExists c1.disk p = true := by
  induction init generalizing c with
  | nil =>
    simp only [List.nil_append, createLoop] at h
    by_cases hf : E.FileExists c.disk p = true
    · simp [hf] at h
    · by_cases hd : E.DirExists c.disk p = true
      · simp [hf, hd] at h
        rw [← h]; exact hd
      · by_cases hc : (E.CreateDir c.disk p).1 = true
        · by_cases hd2 : E.DirExists (E.CreateDir c.disk p).2 p = true
          · simp [hf, hd, hc, hd2] at h
            rw [← h]; exact hd2
          · simp [hf, hd, hc, hd2] at h
        · simp [hf, hd, hc] at h
  | cons a init ih =>
    simp only [List.cons_append, createLoop] at h
    by_cases hf : E.FileExists c.disk a = true
    · simp [hf] at h
    · by_cases hd : E.DirExists c.disk a = true
      · simp only [hf, hd, if_true] at h
        exact ih c (by simpa using h)
      · by_cases hc : (E.CreateDir c.disk a).1 = true
        · by_cases hd2 : E.DirExists (E.CreateDir c.disk a).2 a = true
          · simp [hf, hd, hc, hd2] at h
            exact ih _ h
          · simp [hf, hd, hc, hd2] at h
        · simp [hf, hd, hc] at h

/-- When a path of the walk exists as a file and no earlier path of the walk is
that path, the creation loop returns false and has requested directories only
among the earlier paths, in walk order. -/
theorem createLoop_file {σ : Type} (E : Engine σ) (hE : CreateDirModel E) (f : String)
    (post : List String) (pre : List String) (c : Context σ)
    (hf : E.FileExists c.disk f = true) (hpre : f ∉ pre) :
    ∃ (c1 : Context σ) (created : List String),
      createLoop E (pre ++ f :: post) c = (false, c1) ∧
      c1.calls = c.calls ++ created.map FsCall.createDir ∧ created.Sublist pre := by
  induction pre generalizing c with
  | nil =>
    refine ⟨c, [], ?_, by simp, List.Sublist.refl _⟩
    simp [createLoop, hf]
  | cons a pre ih =>
    have hne : f ≠ a := fun e => hpre (by simp [e])
    have hpre1 : f ∉ pre := fun e => hpre (List.mem_cons_of_mem _ e)
    simp only [List.cons_append, createLoop]
    by_cases hfa : E.FileExists c.disk a = true
    · exact ⟨c, [], by simp [hfa], by simp, List.nil_sublist _⟩
    · by_cases hd : E.DirExists c.disk a = true
      · obtain ⟨c1, created, h1, h2, h3⟩ := ih c hf hpre1
        exact ⟨c1, created, by simp [hfa, hd, h1], h2, h3.cons a⟩
      · by_cases hc : (E.CreateDir c.disk a).1 = true
        · by_cases hd2 : E.DirExists (E.CreateDir c.disk a).2 a = true
          · have hf1 : E.FileExists (E.CreateDir c.disk a).2 f = true := by
              rw [hE.files_else c.disk a f hc hne]; exact hf
            obtain ⟨c1, created, h1, h2, h3⟩ := ih
              { c with disk := (E.CreateDir c.disk a).2,
                       calls := c.calls ++ [FsCall.createDir a] } hf1 hpre1
            refine ⟨c1, a :: created, by simp [hfa, hd, hc, hd2, h1], ?_, h3.cons₂ a⟩
            simp [h2]
          · exact ⟨{ c with disk := (E.CreateDir c.disk a).2,
                            calls := c.calls ++ [FsCall.createDir a] }, [a],
              by simp [hfa, hd, hc, hd2], by simp, (List.nil_sublist pre).cons₂ a⟩
        · exact ⟨{ c with disk := (E.CreateDir c.disk a).2,
                          calls := c.calls ++ [FsCall.createDir a] }, [a],
            by simp [hfa, hd, hc], by simp, (List.nil_sublist pre).cons₂ a⟩

/-- When `GetParentPath` yields the empty string or a strictly shorter string,
the `while (true)` loop ends within `length + 1` iterations. -/
theorem collectParents_terminates {σ : Type} (E : Engine σ)
    (hshrink : ∀ p, (E.GetParentPath p).length = 0 ∨ (E.GetParentPath p).length < p.length)
    (fuel : Nat) (p : String) (h : p.length < fuel) :
    ∃ parents, collectParents E fuel p = some parents := by
  induction fuel generalizing p with
  | zero => omega
  | succ n ih =>
    unfold collectParents
    by_cases h0 : (E.GetParentPath p).length = 0
    · exact ⟨[], by simp [h0]⟩
    · have hlt : (E.GetParentPath p).length < n := by
        rcases hshrink p with h1 | h1
        · exact absurd h1 h0
        · omega
      obtain ⟨parents, hp⟩ := ih _ hlt
      exact ⟨E.GetParentPath p :: parents, by simp [h0, hp]⟩

/-- The index found by `findLastSlash` lies inside the string. -/
theorem findLastSlash_lt (cs : List Char) (k : Nat) (h : findLastSlash cs = some k) :
    k < cs.length := by
  induction cs generalizing k with
  | nil => simp [findLastSlash] at h
  | cons ch cs ih =>
    cases hr : findLastSlash cs with
    | some j =>
      simp only [findLastSlash, hr, Option.some.injEq] at h
      have := ih j hr
      simp only [List.length_cons]
      omega
    | none =>
      simp only [findLastSlash, hr] at h
      simp only [List.length_cons]
      by_cases hch : ch = '/'
      · simp only [hch, if_true, Option.some.injEq] at h
        omega
      · simp [hch] at h

/-- When `findLastSlash` finds the final position, the string ends in a slash. -/
theorem findLastSlash_last (cs : List Char) (k : Nat) (h : findLastSlash cs = some k)
    (hk : k + 1 = cs.length) : cs.getLast? = some '/' := by
  induction cs generalizing k with
  | nil => simp [findLastSlash] at h
  | cons ch cs ih =>
    cases hr : findLastSlash cs with
    | some j =>
      simp only [findLastSlash, hr, Option.some.injEq] at h
      simp only [List.length_cons] at hk
      have hj : j + 1 = cs.length := by omega
      have hlast := ih j hr hj
      cases cs with
      | nil => simp at hj
      | cons b cs => simpa [List.getLast?_cons_cons] using hlast
    | none =>
      simp only [findLastSlash, hr] at h
      by_cases hch : ch = '/'
      · simp only [hch, if_true, Option.some.injEq] at h
        simp only [List.length_cons] at hk
        have : cs = [] := List.eq_nil_of_length_eq_zero (by omega)
        subst this
        simp [hch]
      · simp [hch] at h

/-- Trimming never lengthens a string. -/
theorem trimmed_length_le (cs : List Char) : (trimmed cs).length ≤ cs.length := by
  unfold trimmed
  simp only [List.length_reverse]
  have h1 := (List.dropWhile_sublist (fun ch => ch = ' ' || ch = Char.ofNat 9)
    (l := (cs.dropWhile (fun ch => ch = ' ' || ch = Char.ofNat 9)).reverse)).length_le
  have h2 := (List.dropWhile_sublist (fun ch => ch = ' ' || ch = Char.ofNat 9) (l := cs)).length_le
  simp only [List.length_reverse] at h1
  omega

/-- The simulated `GetParentPath` returns the empty string or a strictly shorter
one. -/
theorem parentChars_shrinks (cs : List Char) :
    (parentChars cs).length = 0 ∨ (parentChars cs).length < cs.length := by
  unfold parentChars
  cases hf : findLastSlash (dropSlash cs) with
  | none => left; rfl
  | some pos =>
    right
    have hlen : (slashes (trimmed cs)).length ≤ cs.length := by
      simp only [slashes, List.length_map]
      exact trimmed_length_le cs
    have hpos : pos + 1 < cs.length := by
      cases hl : (slashes (trimmed cs)).getLast? with
      | none =>
        simp only [dropSlash, hl] at hf
        have := findLastSlash_lt _ _ hf
        have hnil : slashes (trimmed cs) = [] := List.getLast?_eq_none_iff.mp hl
        rw [hnil] at this
        simp at this
      | some ch =>
        simp only [dropSlash, hl] at hf
        by_cases hch : ch = '/'
        · simp only [hch, if_true] at hf
          have h1 := findLastSlash_lt _ _ hf
          simp only [List.length_dropLast] at h1
          omega
        · simp only [hch, if_false] at hf
          have h1 := findLastSlash_lt _ _ hf
          have h2 : pos + 1 ≠ (slashes (trimmed cs)).length := by
            intro e
            have := findLastSlash_last _ _ hf e
            rw [hl] at this
            exact hch (Option.some.inj this)
          omega
    simp only [List.length_take]
    omega

/-- The `GetParentPath` of the simulated engine shrinks its argument. -/
theorem simEngine_parent_shrinks (p : String) :
    (simEngine.GetParentPath p).length = 0 ∨ (simEngine.GetParentPath p).length < p.length := by
  exact parentChars_shrinks p.data

/-- C3: `CreateDirsRecursive` over an engine whose `CreateDir` follows
`CreateDirModel`.  With `directory` the normalised directory (internal path with
a trailing slash): (1) if the call returns true then `directory` exists as a
directory afterwards; (2) if `directory` already existed the call returns true
and the context (disk and request log) is unchanged; (3) if `directory` does not
exist and, walking the ancestor paths from the topmost one down to `directory`,
`f` is the first path that exists as a file, then the call returns false and
every directory it requested is one of the paths walked before `f`, in walk
order, so nothing is created at or below `f`; (4) when `GetParentPath` returns
the empty string or a strictly shorter string, the call returns for every fuel
above the length of `directory`. -/
theorem CreateDirsRecursive_contract {σ : Type} (E : Engine σ) (hE : CreateDirModel E)
    (fuel : Nat) (directoryIn : String) (c : Context σ) :
    (∀ c1, CreateDirsRecursive E fuel directoryIn c = some (true, c1) →
      E.DirExists c1.disk (normalisedDir E directoryIn) = true) ∧
    (E.DirExists c.disk (normalisedDir E directoryIn) = true →
      CreateDirsRecursive E fuel directoryIn c = some (true, c)) ∧
    (∀ parents pre f post,
      E.DirExists c.disk (normalisedDir E directoryIn) = false →
      collectParents E fuel (normalisedDir E directoryIn) = some parents →
      (normalisedDir E directoryIn :: parents).reverse = pre ++ f :: post →
      (∀ p ∈ pre, E.FileExists c.disk p = false) →
      E.FileExists c.disk f = true →
      ∃ (c1 : Context σ) (created : List String),
        CreateDirsRecursive E fuel directoryIn c = some (false, c1) ∧
        c1.calls = c.calls ++ created.map FsCall.createDir ∧ created.Sublist pre) ∧
    ((∀ p, (E.GetParentPath p).length = 0 ∨ (E.GetParentPath p).length < p.length) →
      (normalisedDir E directoryIn).length < fuel →
      ∃ r, CreateDirsRecursive E fuel directoryIn c = some r) := by
  refine ⟨?_, ?_, ?_, ?_⟩
  · intro c1 h
    unfold CreateDirsRecursive at h
    by_cases hd : E.DirExists c.disk (normalisedDir E directoryIn) = true
    · simp only [hd, if_true, Option.some.injEq, Prod.mk.injEq, true_and] at h
      rw [← h]; exact hd
    · by_cases hf : E.FileExists c.disk (normalisedDir E directoryIn) = true
      · simp [hd, hf] at h
      · cases hp : collectParents E fuel (normalisedDir E directoryIn) with
        | none => simp [hd, hf, hp] at h
        | some parents =>
          simp only [hd, hf, hp, List.length_cons, List.reverse_cons] at h
          simp only [Nat.add_one_ne_zero, if_false, Option.some.injEq] at h
          exact createLoop_true_last E _ _ c c1 (by simpa using h)
  · intro hd
    simp [CreateDirsRecursive, hd]
  · intro parents pre f post hd hp hrev hpre hf
    have hnot : f ∉ pre := by
      intro hmem
      have := hpre f hmem
      rw [hf] at this
      exact Bool.noConfusion this
    unfold CreateDirsRecursive
    by_cases hfd : E.FileExists c.disk (normalisedDir E directoryIn) = true
    · exact ⟨c, [], by simp [hd, hfd], by simp, List.nil_sublist _⟩
    · obtain ⟨c1, created, h1, h2, h3⟩ := createLoop_file E hE f post pre c hf hnot
      refine ⟨c1, created, ?_, h2, h3⟩
      simp only [hd, hfd, hp, List.length_cons]
      simp only [Bool.false_eq_true, if_false, Nat.add_one_ne_zero, Option.some.injEq]
      rw [hrev]; exact h1
  · intro hshrink hfuel
    unfold CreateDirsRecursive
    obtain ⟨parents, hp⟩ := collectParents_terminates E hshrink fuel _ hfuel
    by_cases hd : E.DirExists c.disk (normalisedDir E directoryIn) = true
    · simp only [hd, if_true]
      exact ⟨_, rfl⟩
    · by_cases hf : E.FileExists c.disk (normalisedDir E directoryIn) = true
      · simp only [hd, hf, if_true, Bool.false_eq_true, if_false]
        exact ⟨_, rfl⟩
      · simp only [hd, hf, hp, List.length_cons, Nat.add_one_ne_zero, if_false,
          Bool.false_eq_true]
        exact ⟨_, rfl⟩

/-- Witness for C3 on the simulated engine: below the file `/data/a.txt` nothing
is created and the call returns false without any request; creating `/data/x/y`
returns true; and the call returns whenever the fuel exceeds the path length. -/
theorem CreateDirsRecursive_contract_witness :
    (∃ (c1 : Context SimDisk) (created : List String),
      CreateDirsRecursive simEngine 20 "/data/a.txt/y" sampleContext = some (false, c1) ∧
      c1.calls = sampleContext.calls ++ created.map FsCall.createDir ∧
      created.Sublist ["/", "/data/"]) ∧
    (∃ r, CreateDirsRecursive simEngine 20 "/data/x/y" sampleContext = some r) :=
  ⟨(CreateDirsRecursive_contract simEngine simEngine_createDirModel 20 "/data/a.txt/y"
      sampleContext).2.2.1 ["/data/a.txt/", "/data/", "/"] ["/", "/data/"] "/data/a.txt/"
      ["/data/a.txt/y/"] (by decide) (by decide) (by decide) (by decide) (by decide),
   (CreateDirsRecursive_contract simEngine simEngine_createDirModel 20 "/data/x/y"
      sampleContext).2.2.2 simEngine_parent_shrinks (by decide)⟩

/-! ## Properties of `Process` and `SceneView` -/

/-- C4 (evaluation at the failing input): after `Run` of a subprocess whose
standard output delivers the chunks "hello " and "world\n", the read loop has
accumulated "hello world\n" but `GetOutput` returns the empty string. -/
theorem Process_GetOutput_after_Run :
    readLoop (echoProcess "").1 = "hello world\n" ∧
    (Process.Run id id echoProcess (Process.new id "AssetImporter" ["model"])).1 = 0 ∧
    (Process.Run id id echoProcess (Process.new id "AssetImporter" ["model"])).2.GetOutput
      = "" := by
  decide

/-- A path cannot end both in ".xml" and in ".json". -/
theorem EndsWith_xml_not_json (s : String) (h : EndsWith s ".xml" false = true) :
    EndsWith s ".json" false = false := by
  by_contra hj
  have hj1 : EndsWith s ".json" false = true := by simpa using hj
  simp only [EndsWith, Bool.false_eq_true, if_false, Bool.and_eq_true, decide_eq_true_eq,
    beq_iff_eq] at h hj1
  obtain ⟨⟨-, -⟩, h2⟩ := h
  obtain ⟨⟨-, hlen⟩, hj2⟩ := hj1
  have hlen5 : 5 ≤ s.data.length := hlen
  have e4 : (".xml" : String).data.length = 4 := rfl
  have e5 : (".json" : String).data.length = 5 := rfl
  rw [e4] at h2
  rw [e5] at hj2
  have hidx : s.data.length - 4 = (s.data.length - 5) + 1 := by omega
  have htail : (s.data.drop (s.data.length - 5)).tail = s.data.drop (s.data.length - 4) := by
    rw [hidx, List.tail_drop]
  have h3 := congrArg List.tail hj2
  rw [← List.map_tail, htail, h2] at h3
  revert h3
  decide

/-- C5: `SceneView::LoadScene`.  Call the load successful when `filePath` ends in
".xml" (case-insensitively) and `LoadXML` succeeded, or ends in ".json" and
`LoadJSON` succeeded.  (1) Whenever `LoadScene` returns, `path_` is `filePath` if
the load was successful and is unchanged otherwise (empty path, other extension,
failed load).  (2) For an empty `filePath` or an unknown extension it returns
with `path_` unchanged and no call made on the scene: no load is attempted and
no editor objects are created.  (3) It returns whenever the resource is found. -/
theorem LoadScene_path (S : SceneEngine) (filePath : String) (v : SceneView) :
    (∀ v1, SceneView.LoadScene S filePath v = Outcome.returned v1 →
      v1.path_ =
        if (EndsWith filePath ".xml" false = true ∧ S.loadXML filePath = true) ∨
           (EndsWith filePath ".json" false = true ∧ S.loadJSON filePath = true)
        then filePath else v.path_) ∧
    ((filePath = "" ∨
        (EndsWith filePath ".xml" false = false ∧ EndsWith filePath ".json" false = false)) →
      ∃ v1, SceneView.LoadScene S filePath v = Outcome.returned v1 ∧ v1.path_ = v.path_ ∧
        v1.sceneCalls = v.sceneCalls) ∧
    (S.hasResource filePath = true →
      ∃ v1, SceneView.LoadScene S filePath v = Outcome.returned v1) := by
  have hempty : filePath.data.isEmpty = true →
      EndsWith filePath ".xml" false = false ∧ EndsWith filePath ".json" false = false := by
    intro h
    have hnil : filePath.data = [] := List.isEmpty_iff.mp h
    constructor <;> simp [EndsWith, hnil]
  refine ⟨?_, ?_, ?_⟩
  · intro v1 h
    unfold SceneView.LoadScene at h
    by_cases he : filePath.data.isEmpty = true
    · obtain ⟨hx, hj⟩ := hempty he
      simp only [he, if_true, Outcome.returned.injEq] at h
      subst h
      simp [hx, hj]
    · simp only [he, Bool.false_eq_true, if_false] at h
      by_cases hx : EndsWith filePath ".xml" false = true
      · by_cases hr : S.hasResource filePath = true
        · by_cases hl : S.loadXML filePath = true
          · simp [hx, hr, hl, SceneView.CreateEditorObjects] at h
            subst h
            simp [hx, hl]
          · have hj : EndsWith filePath ".json" false = false :=
              EndsWith_xml_not_json filePath hx
            simp [hx, hr, hl] at h
            subst h
            simp [hx, hl, hj]
        · simp [hx, hr] at h
      · by_cases hj : EndsWith filePath ".json" false = true
        · by_cases hr : S.hasResource filePath = true
          · by_cases hl : S.loadJSON filePath = true
            · simp [hx, hj, hr, hl, SceneView.CreateEditorObjects] at h
              subst h
              simp [hj, hl]
            · simp [hx, hj, hr, hl] at h
              subst h
              simp [hx, hj, hl]
          · simp [hx, hj, hr] at h
        · simp [hx, hj] at h
          subst h
          simp [hx, hj]
  · intro h
    have hxj : filePath.data.isEmpty = true ∨
        (EndsWith filePath ".xml" false = false ∧ EndsWith filePath ".json" false = false) := by
      rcases h with h | h
      · left; subst h; rfl
      · right; exact h
    unfold SceneView.LoadScene
    rcases hxj with he | ⟨hx, hj⟩
    · exact ⟨v, by simp [he], rfl, rfl⟩
    · by_cases he : filePath.data.isEmpty = true
      · exact ⟨v, by simp [he], rfl, rfl⟩
      · exact ⟨{ v with errorLog := v.errorLog ++
            ["Unknown scene file format " ++ S.GetExtension filePath] },
          by simp [he, hx, hj], rfl, rfl⟩
  · intro hr
    unfold SceneView.LoadScene
    by_cases he : filePath.data.isEmpty = true
    · exact ⟨v, by simp [he]⟩
    · simp only [he, Bool.false_eq_true, if_false, hr, Bool.not_true]
      by_cases hx : EndsWith filePath ".xml" false = true
      · by_cases hl : S.loadXML filePath = true
        · simp only [hx, hl, if_true]; exact ⟨_, rfl⟩
        · simp only [hx, hl, if_true, Bool.false_eq_true, if_false]; exact ⟨_, rfl⟩
      · by_cases hj : EndsWith filePath ".json" false = true
        · by_cases hl : S.loadJSON filePath = true
          · simp only [hx, hj, hl, if_true, Bool.false_eq_true, if_false]; exact ⟨_, rfl⟩
          · simp only [hx, hj, hl, if_true, Bool.false_eq_true, if_false]; exact ⟨_, rfl⟩
        · simp only [hx, hj, Bool.false_eq_true, if_false]; exact ⟨_, rfl⟩

/-- Witness for C5: a text file is refused without touching the scene. -/
theorem LoadScene_path_witness :
    ∃ v1, SceneView.LoadScene sampleSceneEngine "notes.txt" sampleView = Outcome.returned v1 ∧
      v1.path_ = sampleView.path_ ∧ v1.sceneCalls = sampleView.sceneCalls :=
  (LoadScene_path sampleSceneEngine "notes.txt" sampleView).2.1
    (Or.inr ⟨by decide, by decide⟩)

/-- A string is empty exactly when its character list is. -/
theorem isEmpty_data_iff (s : String) : s.data.isEmpty = true ↔ s = "" := by
  cases s with
  | mk l =>
    cases l with
    | nil => simp
    | cons a l => simp [String.ext_iff]

/-- C6: `SceneView::SaveScene`.  With `fullPath` the resolved resource file name
of `filePath` (or of `path_` when `filePath` is empty): (1) the result is true
exactly when `fullPath` ends in ".xml" (case-insensitively) and `SaveXML`
reported success, or ends in ".json" and `SaveJSON` reported success; (2)
afterwards `path_` is `filePath` when the result is true and `filePath` is
non-empty, and is unchanged in every other case. -/
theorem SaveScene_result (S : SceneEngine) (saveSceneElapsedTime_ : Bool)
    (filePath : String) (v : SceneView) :
    ((SceneView.SaveScene S saveSceneElapsedTime_ filePath v).1 = true ↔
      (EndsWith (S.GetResourceFileName (if filePath = "" then v.path_ else filePath))
          ".xml" false = true ∧
        S.saveXML (S.GetResourceFileName (if filePath = "" then v.path_ else filePath))
          = true) ∨
      (EndsWith (S.GetResourceFileName (if filePath = "" then v.path_ else filePath))
          ".json" false = true ∧
        S.saveJSON (S.GetResourceFileName (if filePath = "" then v.path_ else filePath))
          = true)) ∧
    (SceneView.SaveScene S saveSceneElapsedTime_ filePath v).2.path_ =
      if (SceneView.SaveScene S saveSceneElapsedTime_ filePath v).1 = true ∧ filePath ≠ ""
      then filePath else v.path_ := by
  have hres : (if filePath.data.isEmpty = true then v.path_ else filePath)
      = (if filePath = "" then v.path_ else filePath) := by
    by_cases he : filePath = ""
    · simp [he]
    · have : ¬ filePath.data.isEmpty = true := fun h => he ((isEmpty_data_iff _).mp h)
      simp [he, this]
  generalize hfull : S.GetResourceFileName (if filePath = "" then v.path_ else filePath)
    = fullPath
  have hser1 : (SceneView.serialise S saveSceneElapsedTime_ fullPath v).1 =
      (if EndsWith fullPath ".xml" false = true then S.saveXML fullPath
       else if EndsWith fullPath ".json" false = true then S.saveJSON fullPath else false) := by
    unfold SceneView.serialise
    by_cases hx : EndsWith fullPath ".xml" false = true
    · simp [hx]
    · by_cases hj : EndsWith fullPath ".json" false = true <;> simp [hx, hj]
  have hser2 : (SceneView.serialise S saveSceneElapsedTime_ fullPath v).2.path_ = v.path_ := by
    unfold SceneView.serialise
    by_cases hx : EndsWith fullPath ".xml" false = true
    · cases saveSceneElapsedTime_ <;> simp [hx]
    · by_cases hj : EndsWith fullPath ".json" false = true <;>
        cases saveSceneElapsedTime_ <;> simp [hx, hj]
  have hrun1 : (SceneView.SaveScene S saveSceneElapsedTime_ filePath v).1 =
      (SceneView.serialise S saveSceneElapsedTime_ fullPath v).1 := by
    unfold SceneView.SaveScene
    simp only [hres, hfull]
    by_cases hr : (SceneView.serialise S saveSceneElapsedTime_ fullPath v).1 = true
    · by_cases he : filePath.data.isEmpty = true <;> simp [hr, he]
    · simp [hr]
  have hrun2 : (SceneView.SaveScene S saveSceneElapsedTime_ filePath v).2.path_ =
      if (SceneView.serialise S saveSceneElapsedTime_ fullPath v).1 = true ∧ filePath ≠ ""
      then filePath else v.path_ := by
    unfold SceneView.SaveScene
    simp only [hres, hfull]
    by_cases hr : (SceneView.serialise S saveSceneElapsedTime_ fullPath v).1 = true
    · by_cases he : filePath = ""
      · have he1 : filePath.data.isEmpty = true := (isEmpty_data_iff _).mpr he
        simp [hr, he1, he, hser2]
      · have he1 : ¬ filePath.data.isEmpty = true := fun h => he ((isEmpty_data_iff _).mp h)
        simp [hr, he1, he]
    · simp [hr, hser2]
  refine ⟨?_, ?_⟩
  · rw [hrun1, hser1]
    by_cases hx : EndsWith fullPath ".xml" false = true
    · have hj := EndsWith_xml_not_json fullPath hx
      simp [hx, hj]
    · by_cases hj : EndsWith fullPath ".json" false = true <;> simp [hx, hj]
  · rw [hrun2, hrun1]

/-- Witness for C6: saving under a JSON name fails in the sample engine and
leaves `path_` as it was. -/
theorem SaveScene_result_witness :
    (SceneView.SaveScene sampleSceneEngine false "new.json" sampleView).1 = false ∧
    (SceneView.SaveScene sampleSceneEngine false "new.json" sampleView).2.path_ = "old.xml" :=
  ⟨by decide,
   (SaveScene_result sampleSceneEngine false "new.json" sampleView).2.trans (by decide)⟩

/-! ## Properties of `Editor::CreateNewScene` -/

/-- With fuel above `n` the digits of `n` have value `n`. -/
theorem digitsValue_digitsRev (fuel n : Nat) (h : n < fuel) :
    digitsValue (digitsRev fuel n) = n := by
  induction fuel generalizing n with
  | zero => omega
  | succ k ih =>
    unfold digitsRev
    by_cases hn : n < 10
    · simp [hn, digitsValue]
    · have hk : n / 10 < k := by omega
      simp only [hn, if_false, digitsValue, ih _ hk]
      omega

/-- Every digit produced is below ten. -/
theorem digitsRev_lt (fuel n : Nat) : ∀ d ∈ digitsRev fuel n, d < 10 := by
  induction fuel generalizing n with
  | zero => intro d hd; simp [digitsRev] at hd
  | succ k ih =>
    intro d hd
    unfold digitsRev at hd
    by_cases hn : n < 10
    · simp only [hn, if_true, List.mem_singleton] at hd
      omega
    · simp only [hn, if_false, List.mem_cons] at hd
      rcases hd with hd | hd
      · omega
      · exact ih _ d hd

/-- The digit character determines the digit. -/
theorem digitChar_value (d : Nat) (h : d < 10) : (Nat.digitChar d).toNat - 48 = d := by
  interval_cases d <;> rfl

/-- Distinct natural numbers have distinct numerals. -/
theorem formatNat_injective (a b : Nat) (h : formatNat a = formatNat b) : a = b := by
  unfold formatNat at h
  have h1 : (digitsRev (a + 1) a).reverse.map Nat.digitChar
      = (digitsRev (b + 1) b).reverse.map Nat.digitChar := by
    injection h
  have back : ∀ l : List Nat, (∀ d ∈ l, d < 10) →
      (l.map Nat.digitChar).map (fun ch => ch.toNat - 48) = l := by
    intro l hl
    rw [List.map_map]
    conv_rhs => rw [← List.map_id l]
    apply List.map_congr_left
    intro d hd
    exact digitChar_value d (hl d hd)
  have ha : ∀ d ∈ (digitsRev (a + 1) a).reverse, d < 10 := fun d hd =>
    digitsRev_lt _ _ d (List.mem_reverse.mp hd)
  have hb : ∀ d ∈ (digitsRev (b + 1) b).reverse, d < 10 := fun d hd =>
    digitsRev_lt _ _ d (List.mem_reverse.mp hd)
  have h2 : (digitsRev (a + 1) a).reverse = (digitsRev (b + 1) b).reverse := by
    rw [← back _ ha, ← back _ hb, h1]
  have h3 : digitsRev (a + 1) a = digitsRev (b + 1) b := List.reverse_injective h2
  rw [← digitsValue_digitsRev (a + 1) a (Nat.lt_succ_self a),
    ← digitsValue_digitsRev (b + 1) b (Nat.lt_succ_self b), h3]

/-- Distinct natural indices give distinct scene titles. -/
theorem sceneTitle_injective (a b : Nat) (h : sceneTitle (a : Int) = sceneTitle (b : Int)) :
    a = b := by
  unfold sceneTitle formatInt at h
  have ha : ¬ ((a : Int) < 0) := by omega
  have hb : ¬ ((b : Int) < 0) := by omega
  simp only [ha, hb, if_false, Int.toNat_ofNat] at h
  have h1 : ("Scene#" ++ formatNat a).data = ("Scene#" ++ formatNat b).data := by rw [h]
  simp only [String.data_append] at h1
  have h2 := List.append_cancel_left h1
  exact formatNat_injective a b (String.ext h2)

/-- The lookup `GetSceneView` fails exactly for titles no view carries. -/
theorem GetSceneView_isNone (views : List SceneView) (title : String) :
    (GetSceneView views title).isNone = true ↔ title ∉ views.map (fun v => v.title_) := by
  unfold GetSceneView
  induction views with
  | nil => simp
  | cons v views ih =>
    by_cases hv : v.title_ = title
    · simp [List.find?_cons, hv]
    · have : (v.title_ == title) = false := by simpa using hv
      simp only [List.find?_cons, this, List.map_cons, List.mem_cons, not_or]
      rw [ih]
      constructor
      · intro h; exact ⟨fun e => hv e.symm, h⟩
      · intro h; exact h.2

/-- Pigeonhole: among the titles "Scene#1" to "Scene#(n+1)" one is carried by
none of `n` views. -/
theorem exists_free_title (titles : List String)
    (h : ∀ k : Nat, 1 ≤ k → k ≤ titles.length + 1 → sceneTitle (k : Int) ∈ titles) : False := by
  let L := (List.range (titles.length + 1)).map (fun k : Nat => sceneTitle ((k + 1 : Nat) : Int))
  have hnodup : L.Nodup := by
    apply List.Nodup.map
    · intro a b hab
      have := sceneTitle_injective (a + 1) (b + 1) hab
      omega
    · exact List.nodup_range _
  have hsub : L ⊆ titles := by
    intro t ht
    obtain ⟨k, hk, rfl⟩ := List.mem_map.mp ht
    have hk1 := List.mem_range.mp hk
    exact h (k + 1) (by omega) (by omega)
  have hlen := (hnodup.subperm hsub).length_le
  simp [L] at hlen

/-- The title search started at `i`, when every smaller index is taken, stops
at the smallest free index, which is at most the number of views plus one. -/
theorem findTitleIndex_spec (views : List SceneView)
    (hsize : views.length + 1 < 2147483648) (fuel i : Nat)
    (hi : 1 ≤ i) (hi2 : i ≤ views.length + 1) (hfuel : views.length + 2 ≤ fuel + i)
    (htaken : ∀ k : Nat, 1 ≤ k → k < i →
      sceneTitle (k : Int) ∈ views.map (fun v => v.title_)) :
    ∃ N : Nat, i ≤ N ∧ N ≤ views.length + 1 ∧
      findTitleIndex views fuel (i : Int) = some (N : Int) ∧
      sceneTitle (N : Int) ∉ views.map (fun v => v.title_) ∧
      ∀ k : Nat, 1 ≤ k → k < N → sceneTitle (k : Int) ∈ views.map (fun v => v.title_) := by
  induction fuel generalizing i with
  | zero => omega
  | succ n ih =>
    unfold findTitleIndex
    by_cases hfree : sceneTitle (i : Int) ∈ views.map (fun v => v.title_)
    · have hnone : ¬ (GetSceneView views (sceneTitle (i : Int))).isNone = true := by
        rw [GetSceneView_isNone]; exact fun h => h hfree
      have htaken1 : ∀ k : Nat, 1 ≤ k → k < i + 1 →
          sceneTitle (k : Int) ∈ views.map (fun v => v.title_) := by
        intro k hk1 hk2
        by_cases hki : k = i
        · subst hki; exact hfree
        · exact htaken k hk1 (by omega)
      have hlt : i < views.length + 1 := by
        by_contra hge
        have hieq : i = views.length + 1 := by omega
        apply exists_free_title (views.map (fun v => v.title_))
        intro k hk1 hk2
        simp only [List.length_map] at hk2
        exact htaken1 k hk1 (by omega)
      have hnext : nextIndex (i : Int) = ((i + 1 : Nat) : Int) := by
        unfold nextIndex
        push_cast
        omega
      obtain ⟨N, h1, h2, h3, h4, h5⟩ := ih (i + 1) (by omega) (by omega) (by omega) htaken1
      refine ⟨N, by omega, h2, ?_, h4, h5⟩
      simp only [hnone, if_false, hnext]
      exact h3
    · have hnone : (GetSceneView views (sceneTitle (i : Int))).isNone = true := by
        rw [GetSceneView_isNone]; exact hfree
      exact ⟨i, le_refl _, hi2, by simp [hnone], hfree, htaken⟩

/-- The call `LoadScene` changes neither the title nor the identity of a view. -/
theorem LoadScene_title (S : SceneEngine) (filePath : String) (v v1 : SceneView)
    (h : SceneView.LoadScene S filePath v = Outcome.returned v1) :
    v1.title_ = v.title_ ∧ v1.handle = v.handle := by
  unfold SceneView.LoadScene at h
  by_cases he : filePath.data.isEmpty = true
  · simp only [he, if_true, Outcome.returned.injEq] at h
    subst h; exact ⟨rfl, rfl⟩
  · simp only [he, Bool.false_eq_true, if_false] at h
    by_cases hr : S.hasResource filePath = true
    · by_cases hx : EndsWith filePath ".xml" false = true
      · by_cases hl : S.loadXML filePath = true
        · simp [hx, hr, hl, SceneView.CreateEditorObjects] at h
          subst h; exact ⟨rfl, rfl⟩
        · simp [hx, hr, hl] at h
          subst h; exact ⟨rfl, rfl⟩
      · by_cases hj : EndsWith filePath ".json" false = true
        · by_cases hl : S.loadJSON filePath = true
          · simp [hx, hj, hr, hl, SceneView.CreateEditorObjects] at h
            subst h; exact ⟨rfl, rfl⟩
          · simp [hx, hj, hr, hl] at h
            subst h; exact ⟨rfl, rfl⟩
        · simp [hx, hj] at h
          subst h; exact ⟨rfl, rfl⟩
    · by_cases hx : EndsWith filePath ".xml" false = true
      · simp [hx, hr] at h
      · by_cases hj : EndsWith filePath ".json" false = true
        · simp [hx, hj, hr] at h
        · simp [hx, hj] at h
          subst h; exact ⟨rfl, rfl⟩

/-- The call `LoadScene` returns when the resource is found. -/
theorem LoadScene_returns (S : SceneEngine) (filePath : String) (v : SceneView)
    (hr : S.hasResource filePath = true) :
    ∃ v1, SceneView.LoadScene S filePath v = Outcome.returned v1 := by
  unfold SceneView.LoadScene
  by_cases he : filePath.data.isEmpty = true
  · exact ⟨v, by simp [he]⟩
  · simp only [he, Bool.false_eq_true, if_false, hr, Bool.not_true]
    by_cases hx : EndsWith filePath ".xml" false = true
    · by_cases hl : S.loadXML filePath = true
      · simp only [hx, hl, if_true]; exact ⟨_, rfl⟩
      · simp only [hx, hl, if_true, Bool.false_eq_true, if_false]; exact ⟨_, rfl⟩
    · by_cases hj : EndsWith filePath ".json" false = true
      · by_cases hl : S.loadJSON filePath = true
        · simp only [hx, hj, hl, if_true, Bool.false_eq_true, if_false]; exact ⟨_, rfl⟩
        · simp only [hx, hj, hl, if_true, Bool.false_eq_true, if_false]; exact ⟨_, rfl⟩
      · simp only [hx, hj, Bool.false_eq_true, if_false]; exact ⟨_, rfl⟩

/-- C7: `Editor::CreateNewScene` with fewer than 2^31 - 1 existing views.  The
title search stops, within as many iterations as there are views plus one, at
the smallest `N >= 1` such that no view of `sceneViews_` is titled "Scene#N",
and `N` is at most the number of views plus one.  Whenever the call returns, the
list of views is the old list followed by one view titled "Scene#N", and if the
titles were pairwise distinct before the call they are pairwise distinct after
it.  The call returns when the example scene resource is found. -/
theorem CreateNewScene_title (S : SceneEngine) (fuel : Nat) (path : String) (e : Editor)
    (hsize : e.sceneViews_.length + 1 < 2147483648)
    (hfuel : e.sceneViews_.length + 1 ≤ fuel) :
    ∃ N : Nat, 1 ≤ N ∧ N ≤ e.sceneViews_.length + 1 ∧
      findTitleIndex e.sceneViews_ fuel 1 = some (N : Int) ∧
      GetSceneView e.sceneViews_ (sceneTitle (N : Int)) = none ∧
      (∀ k : Nat, 1 ≤ k → k < N →
        (GetSceneView e.sceneViews_ (sceneTitle (k : Int))).isSome = true) ∧
      (∀ e1, Editor.CreateNewScene S fuel path e = Outcome.returned e1 →
        ∃ v, e1.sceneViews_ = e.sceneViews_ ++ [v] ∧ v.title_ = sceneTitle (N : Int) ∧
          ((e.sceneViews_.map (fun w => w.title_)).Nodup →
            (e1.sceneViews_.map (fun w => w.title_)).Nodup)) ∧
      (S.hasResource "Data/Scenes/SceneLoadExample.xml" = true →
        ∃ e1, Editor.CreateNewScene S fuel path e = Outcome.returned e1) := by
  obtain ⟨N, h1, h2, h3, h4, h5⟩ := findTitleIndex_spec e.sceneViews_ hsize fuel 1
    (le_refl 1) (by omega) (by omega) (fun k hk1 hk2 => by omega)
  have h3a : findTitleIndex e.sceneViews_ fuel 1 = some (N : Int) := by
    simpa using h3
  refine ⟨N, h1, h2, h3a, ?_, ?_, ?_, ?_⟩
  · have := (GetSceneView_isNone e.sceneViews_ (sceneTitle (N : Int))).mpr h4
    exact Option.isNone_iff_eq_none.mp this
  · intro k hk1 hk2
    have hmem := h5 k hk1 hk2
    by_contra hnot
    have hnone : (GetSceneView e.sceneViews_ (sceneTitle (k : Int))).isNone = true := by
      cases hg : GetSceneView e.sceneViews_ (sceneTitle (k : Int)) with
      | none => rfl
      | some w => rw [hg] at hnot; simp at hnot
    exact (GetSceneView_isNone _ _).mp hnone hmem
  · intro e1 he1
    unfold Editor.CreateNewScene at he1
    simp only [h3a] at he1
    cases hl : SceneView.LoadScene S "Data/Scenes/SceneLoadExample.xml"
        { handle := e.allocated, title_ := sceneTitle (N : Int), path_ := "",
          isActive_ := false, sceneCalls := [], errorLog := [] } with
    | returned v =>
      rw [hl] at he1
      simp only [Outcome.returned.injEq] at he1
      have ht := (LoadScene_title S _ _ v hl).1
      simp only at ht
      refine ⟨v, by rw [← he1], ht, ?_⟩
      intro hnodup
      rw [← he1]
      simp only [List.map_append, List.map_cons, List.map_nil]
      rw [List.nodup_append]
      refine ⟨hnodup, List.nodup_singleton _, ?_⟩
      intro t ht1 ht2
      simp only [List.mem_singleton] at ht2
      rw [ht2, ht] at ht1
      exact h4 ht1
    | assertFailed => rw [hl] at he1; simp at he1
    | outOfFuel => rw [hl] at he1; simp at he1
    | nullDereference => rw [hl] at he1; simp at he1
  · intro hr
    unfold Editor.CreateNewScene
    simp only [h3a]
    obtain ⟨v, hv⟩ := LoadScene_returns S "Data/Scenes/SceneLoadExample.xml"
      { handle := e.allocated, title_ := sceneTitle (N : Int), path_ := "",
        isActive_ := false, sceneCalls := [], errorLog := [] } hr
    rw [hv]
    exact ⟨_, rfl⟩

/-- Witness for C7: with views "Scene#1" and "Scene#3" present the search
returns within three iterations and the call returns. -/
theorem CreateNewScene_title_witness :
    ∃ N : Nat, 1 ≤ N ∧ N ≤ sampleEditor.sceneViews_.length + 1 ∧
      findTitleIndex sampleEditor.sceneViews_ 3 1 = some (N : Int) ∧
      ∃ e1, Editor.CreateNewScene sampleSceneEngine 3 "" sampleEditor = Outcome.returned e1 := by
  obtain ⟨N, h1, h2, h3, -, -, -, h7⟩ :=
    CreateNewScene_title sampleSceneEngine 3 "" sampleEditor (by decide) (by decide)
  exact ⟨N, h1, h2, h3, h7 (by decide)⟩

/-! ## Properties of `BaseResourceTab` -/

/-- C8: while the simulation status of the preview tab is not
`SCENE_SIMULATION_STOPPED`, `BaseResourceTab::LoadResource` and
`BaseResourceTab::SaveResource` return false and leave the tab as it was, in
particular `resourceName_`, `pendingLoadResource_`, `lastUndoIndex_` and the
undo stack. -/
theorem resource_io_needs_stopped {U : Type} (K : TabServices U)
    (status : SceneSimulationStatus)
    (hstatus : status ≠ SceneSimulationStatus.SCENE_SIMULATION_STOPPED)
    (resourcePath : String) (t : BaseResourceTab U) :
    BaseResourceTab.LoadResource K status resourcePath t = (false, t) ∧
    BaseResourceTab.SaveResource K status t = (false, t) := by
  have h1 : Tab.LoadResource status resourcePath = false := by
    cases status <;> first | exact absurd rfl hstatus | rfl
  have h2 : Tab.SaveResource status = false := by
    cases status <;> first | exact absurd rfl hstatus | rfl
  constructor
  · simp [BaseResourceTab.LoadResource, h1]
  · simp [BaseResourceTab.SaveResource, h2]

/-- Witness for C8: with the simulation running the sample tab stays as it is. -/
theorem resource_io_needs_stopped_witness :
    BaseResourceTab.LoadResource sampleServices
        SceneSimulationStatus.SCENE_SIMULATION_RUNNING "b.scene" sampleTab = (false, sampleTab) ∧
    BaseResourceTab.SaveResource sampleServices
        SceneSimulationStatus.SCENE_SIMULATION_RUNNING sampleTab = (false, sampleTab) :=
  resource_io_needs_stopped sampleServices SceneSimulationStatus.SCENE_SIMULATION_RUNNING
    (by decide) "b.scene" sampleTab

/-- C9: `BaseResourceTab::LoadResource` with the simulation stopped.  For a
non-empty path `p`: (1) if the tab is modified the call returns false and the
tab afterwards differs only in `pendingLoadResource_`, which is `p`, so
`resourceName_` and the undo stack are unchanged; (2) if the tab is not modified
the call returns true, `resourceName_` is `p`, the undo stack has been cleared
and `IsModified` is false afterwards.  (3) For the empty path the call returns
false and the tab is unchanged. -/
theorem LoadResource_stopped {U : Type} (K : TabServices U) (p : String)
    (t : BaseResourceTab U) :
    (p ≠ "" → t.lastUndoIndex_ ≠ K.Index t.undo_ →
      BaseResourceTab.LoadResource K SceneSimulationStatus.SCENE_SIMULATION_STOPPED p t
        = (false, { t with pendingLoadResource_ := p })) ∧
    (p ≠ "" → t.lastUndoIndex_ = K.Index t.undo_ →
      (BaseResourceTab.LoadResource K SceneSimulationStatus.SCENE_SIMULATION_STOPPED p t).1
        = true ∧
      (BaseResourceTab.LoadResource K SceneSimulationStatus.SCENE_SIMULATION_STOPPED p t).2.resourceName_
        = p ∧
      (BaseResourceTab.LoadResource K SceneSimulationStatus.SCENE_SIMULATION_STOPPED p t).2.undo_
        = K.Clear t.undo_ ∧
      (BaseResourceTab.LoadResource K SceneSimulationStatus.SCENE_SIMULATION_STOPPED p t).2.pendingLoadResource_
        = t.pendingLoadResource_ ∧
      BaseResourceTab.IsModified K
        (BaseResourceTab.LoadResource K SceneSimulationStatus.SCENE_SIMULATION_STOPPED p t).2
        = false) ∧
    (BaseResourceTab.LoadResource K SceneSimulationStatus.SCENE_SIMULATION_STOPPED "" t
      = (false, t)) := by
  have hstop : ∀ q, Tab.LoadResource SceneSimulationStatus.SCENE_SIMULATION_STOPPED q = true :=
    fun _ => rfl
  refine ⟨?_, ?_, ?_⟩
  · intro hp hmod
    have he : ¬ p.data.isEmpty = true := fun h => hp ((isEmpty_data_iff p).mp h)
    have hm : BaseResourceTab.IsModified K t = true := by
      simpa [BaseResourceTab.IsModified] using hmod
    simp [BaseResourceTab.LoadResource, hstop, he, hm]
  · intro hp hmod
    have he : ¬ p.data.isEmpty = true := fun h => hp ((isEmpty_data_iff p).mp h)
    have hm : BaseResourceTab.IsModified K t = false := by
      simpa [BaseResourceTab.IsModified] using hmod
    have hrun : BaseResourceTab.LoadResource K
        SceneSimulationStatus.SCENE_SIMULATION_STOPPED p t =
        (true, { BaseResourceTab.SetResourceName K p t with
          undo_ := K.Clear (BaseResourceTab.SetResourceName K p t).undo_,
          lastUndoIndex_ := K.Index (K.Clear (BaseResourceTab.SetResourceName K p t).undo_) }) := by
      simp [BaseResourceTab.LoadResource, hstop, he, hm]
    have hset : (BaseResourceTab.SetResourceName K p t).resourceName_ = p ∧
        (BaseResourceTab.SetResourceName K p t).undo_ = t.undo_ ∧
        (BaseResourceTab.SetResourceName K p t).pendingLoadResource_
          = t.pendingLoadResource_ := by
      unfold BaseResourceTab.SetResourceName BaseResourceTab.SetTitle
      cases t.isUtility_ <;> simp
    rw [hrun]
    refine ⟨rfl, hset.1, ?_, hset.2.2, ?_⟩
    · simp [hset.2.1]
    · simp [BaseResourceTab.IsModified]
  · simp [BaseResourceTab.LoadResource, hstop]

/-- Witness for C9: the sample tab is modified, so loading `b.scene` is deferred
to `pendingLoadResource_`. -/
theorem LoadResource_stopped_witness :
    BaseResourceTab.LoadResource sampleServices
        SceneSimulationStatus.SCENE_SIMULATION_STOPPED "b.scene" sampleTab
      = (false, { sampleTab with pendingLoadResource_ := "b.scene" }) :=
  (LoadResource_stopped sampleServices "b.scene" sampleTab).1 (by decide) (by decide)

/-! ## Properties of `SceneView::RenderWindow` -/

/-- The selection handler changes neither the selection nor the query log nor
the identity of the view. -/
theorem OnNodeSelectionChanged_keeps (components : Nat → List Nat) (v : SceneView) :
    (SceneView.OnNodeSelectionChanged components v).gizmo_ = v.gizmo_ ∧
    (SceneView.OnNodeSelectionChanged components v).rayQueries = v.rayQueries ∧
    (SceneView.OnNodeSelectionChanged components v).handle = v.handle := by
  unfold SceneView.OnNodeSelectionChanged
  split <;> exact ⟨rfl, rfl, rfl⟩

/-- The selection, query log and identity after `SceneView::UnselectAll`. -/
theorem UnselectAll_keeps (components : Nat → List Nat) (v : SceneView) :
    (SceneView.UnselectAll components v).gizmo_ = { nodeSelection_ := [] } ∧
    (SceneView.UnselectAll components v).rayQueries = v.rayQueries ∧
    (SceneView.UnselectAll components v).handle = v.handle := by
  unfold SceneView.UnselectAll Gizmo.UnselectAll
  cases hsel : v.gizmo_.nodeSelection_ with
  | nil =>
    have hg : v.gizmo_ = { nodeSelection_ := [] } := by
      cases hv : v.gizmo_ with
      | mk sel => rw [hv] at hsel; simp at hsel; rw [hsel]
    simp [hg]
  | cons a l =>
    simp only [List.isEmpty_cons, Bool.false_eq_true, if_false, if_true]
    have h := OnNodeSelectionChanged_keeps components
      { v with gizmo_ := { nodeSelection_ := [] } }
    exact ⟨h.1, h.2.1, h.2.2⟩

/-- The selection, query log and identity after `SceneView::ToggleSelection`. -/
theorem ToggleSelection_keeps (components : Nat → List Nat) (node : Nat) (v : SceneView) :
    (SceneView.ToggleSelection components node v).gizmo_ = v.gizmo_.ToggleSelection node ∧
    (SceneView.ToggleSelection components node v).rayQueries = v.rayQueries ∧
    (SceneView.ToggleSelection components node v).handle = v.handle := by
  unfold SceneView.ToggleSelection
  have h := OnNodeSelectionChanged_keeps components
    { v with gizmo_ := v.gizmo_.ToggleSelection node }
  exact ⟨h.1, h.2.1, h.2.2⟩

/-- Toggling a node in the empty selection selects exactly that node. -/
theorem ToggleSelection_empty (node : Nat) :
    Gizmo.ToggleSelection node { nodeSelection_ := [] } = { nodeSelection_ := [node] } := by
  simp [Gizmo.ToggleSelection, Gizmo.IsSelected, Gizmo.Select]

/-- Toggling a node flips its selection state and keeps that of every other
node. -/
theorem ToggleSelection_isSelected (node m : Nat) (g : Gizmo) :
    (g.ToggleSelection node).IsSelected m =
      if m = node then !g.IsSelected node else g.IsSelected m := by
  unfold Gizmo.ToggleSelection
  by_cases hsel : g.IsSelected node = true
  · have hmem : node ∈ g.nodeSelection_ := by simpa [Gizmo.IsSelected] using hsel
    simp only [hsel, if_true, Gizmo.Unselect, Bool.not_true, Bool.false_eq_true, if_false]
    by_cases hm : m = node
    · subst hm
      simp [Gizmo.IsSelected]
    · simp [Gizmo.IsSelected, hm]
  · have hnot : node ∉ g.nodeSelection_ := by simpa [Gizmo.IsSelected] using hsel
    simp only [hsel, Bool.false_eq_true, if_false, Gizmo.Select]
    by_cases hm : m = node
    · subst hm
      simp [Gizmo.IsSelected, hnot]
    · simp [Gizmo.IsSelected, hm]

/-- The selection and the query log after the object selection of
`RenderWindow`. -/
theorem pickNode_result (f : WindowFrame) (v : SceneView) :
    (SceneView.pickNode f v).rayQueries =
      v.rayQueries ++ (if f.triangleHit.isNone
        then [RayQueryLevel.RAY_TRIANGLE, RayQueryLevel.RAY_OBB]
        else [RayQueryLevel.RAY_TRIANGLE]) ∧
    (SceneView.pickNode f v).gizmo_ =
      (match f.hit with
       | some clickNode =>
         if f.ctrlDown then v.gizmo_.ToggleSelection clickNode
         else { nodeSelection_ := [clickNode] }
       | none => { nodeSelection_ := [] }) ∧
    (SceneView.pickNode f v).handle = v.handle := by
  unfold SceneView.pickNode WindowFrame.hit
  cases ht : f.triangleHit with
  | some n =>
    simp only [Option.isNone_some, Bool.false_eq_true, if_false, Option.isSome_some, if_true]
    cases hc : f.ctrlDown with
    | true =>
      simp only [Bool.not_true, Bool.false_eq_true, if_false, if_true]
      have h := ToggleSelection_keeps f.components n
        { v with rayQueries := v.rayQueries ++ [RayQueryLevel.RAY_TRIANGLE] }
      exact ⟨h.2.1, h.1, h.2.2⟩
    | false =>
      simp only [Bool.not_false, if_true, Bool.false_eq_true, if_false]
      have hu := UnselectAll_keeps f.components
        { v with rayQueries := v.rayQueries ++ [RayQueryLevel.RAY_TRIANGLE] }
      have h := ToggleSelection_keeps f.components n (SceneView.UnselectAll f.components
        { v with rayQueries := v.rayQueries ++ [RayQueryLevel.RAY_TRIANGLE] })
      refine ⟨by rw [h.2.1, hu.2.1], ?_, by rw [h.2.2, hu.2.2]⟩
      rw [h.1, hu.1, ToggleSelection_empty]
  | none =>
    simp only [Option.isNone_none, if_true, Option.isSome_none, Bool.false_eq_true, if_false]
    cases hb : f.boxHit with
    | some n =>
      simp only
      cases hc : f.ctrlDown with
      | true =>
        simp only [Bool.not_true, Bool.false_eq_true, if_false, if_true]
        have h := ToggleSelection_keeps f.components n
          { v with rayQueries := v.rayQueries ++ [RayQueryLevel.RAY_TRIANGLE] ++
              [RayQueryLevel.RAY_OBB] }
        refine ⟨?_, h.1, h.2.2⟩
        rw [h.2.1]; simp
      | false =>
        simp only [Bool.not_false, if_true, Bool.false_eq_true, if_false]
        have hu := UnselectAll_keeps f.components
          { v with rayQueries := v.rayQueries ++ [RayQueryLevel.RAY_TRIANGLE] ++
              [RayQueryLevel.RAY_OBB] }
        have h := ToggleSelection_keeps f.components n (SceneView.UnselectAll f.components
          { v with rayQueries := v.rayQueries ++ [RayQueryLevel.RAY_TRIANGLE] ++
              [RayQueryLevel.RAY_OBB] })
        refine ⟨?_, ?_, by rw [h.2.2, hu.2.2]⟩
        · rw [h.2.1, hu.2.1]; simp
        · rw [h.1, hu.1, ToggleSelection_empty]
    | none =>
      simp only
      have hu := UnselectAll_keeps f.components
        { v with rayQueries := v.rayQueries ++ [RayQueryLevel.RAY_TRIANGLE] ++
            [RayQueryLevel.RAY_OBB] }
      refine ⟨?_, hu.1, hu.2.2⟩
      rw [hu.2.1]; simp

/-- Saving the scene changes neither the selection nor the query log nor the
identity nor the activity flag of the view. -/
theorem SaveScene_keeps (S : SceneEngine) (flag : Bool) (filePath : String) (v : SceneView) :
    (SceneView.SaveScene S flag filePath v).2.gizmo_ = v.gizmo_ ∧
    (SceneView.SaveScene S flag filePath v).2.rayQueries = v.rayQueries ∧
    (SceneView.SaveScene S flag filePath v).2.handle = v.handle ∧
    (SceneView.SaveScene S flag filePath v).2.isActive_ = v.isActive_ := by
  have hser : ∀ p, (SceneView.serialise S flag p v).2.gizmo_ = v.gizmo_ ∧
      (SceneView.serialise S flag p v).2.rayQueries = v.rayQueries ∧
      (SceneView.serialise S flag p v).2.handle = v.handle ∧
      (SceneView.serialise S flag p v).2.isActive_ = v.isActive_ := by
    intro p
    unfold SceneView.serialise
    by_cases hx : EndsWith p ".xml" false = true
    · cases flag <;> simp [hx]
    · by_cases hj : EndsWith p ".json" false = true <;> cases flag <;> simp [hx, hj]
  have key : ∀ (r : Bool × SceneView) (resourcePath : String),
      (if r.1 = true then
        (if (!filePath.data.isEmpty) = true then (true, { r.2 with path_ := filePath })
         else (true, r.2))
       else (false, { r.2 with errorLog := r.2.errorLog ++
        ["Saving scene to " ++ resourcePath ++ " failed."] })).2.gizmo_ = r.2.gizmo_ ∧
      (if r.1 = true then
        (if (!filePath.data.isEmpty) = true then (true, { r.2 with path_ := filePath })
         else (true, r.2))
       else (false, { r.2 with errorLog := r.2.errorLog ++
        ["Saving scene to " ++ resourcePath ++ " failed."] })).2.rayQueries = r.2.rayQueries ∧
      (if r.1 = true then
        (if (!filePath.data.isEmpty) = true then (true, { r.2 with path_ := filePath })
         else (true, r.2))
       else (false, { r.2 with errorLog := r.2.errorLog ++
        ["Saving scene to " ++ resourcePath ++ " failed."] })).2.handle = r.2.handle ∧
      (if r.1 = true then
        (if (!filePath.data.isEmpty) = true then (true, { r.2 with path_ := filePath })
         else (true, r.2))
       else (false, { r.2 with errorLog := r.2.errorLog ++
        ["Saving scene to " ++ resourcePath ++ " failed."] })).2.isActive_ = r.2.isActive_ := by
    intro r resourcePath
    rcases r with ⟨b, w⟩
    cases b <;> cases filePath.data.isEmpty <;> exact ⟨rfl, rfl, rfl, rfl⟩
  have h := key (SceneView.serialise S flag
    (S.GetResourceFileName (if filePath.data.isEmpty = true then v.path_ else filePath)) v)
    (if filePath.data.isEmpty = true then v.path_ else filePath)
  have hs := hser
    (S.GetResourceFileName (if filePath.data.isEmpty = true then v.path_ else filePath))
  unfold SceneView.SaveScene
  exact ⟨h.1.trans hs.1, h.2.1.trans hs.2.1, h.2.2.1.trans hs.2.2.1, h.2.2.2.trans hs.2.2.2⟩

/-- The settings window changes neither the selection nor the query log nor the
identity nor the activity flag of the view. -/
theorem RenderSettingsWindow_keeps (f : WindowFrame) (v : SceneView) :
    (SceneView.RenderSettingsWindow f v).gizmo_ = v.gizmo_ ∧
    (SceneView.RenderSettingsWindow f v).rayQueries = v.rayQueries ∧
    (SceneView.RenderSettingsWindow f v).handle = v.handle ∧
    (SceneView.RenderSettingsWindow f v).isActive_ = v.isActive_ := by
  unfold SceneView.RenderSettingsWindow
  split
  · split
    · cases f.titleEdit <;> exact ⟨rfl, rfl, rfl, rfl⟩
    · exact ⟨rfl, rfl, rfl, rfl⟩
  · exact ⟨rfl, rfl, rfl, rfl⟩

/-- The focus and activity part of `RenderWindow` changes neither the selection
nor the query log nor the identity of the view. -/
theorem updateActive_keeps (f : WindowFrame) (v : SceneView) :
    (SceneView.updateActive f v).gizmo_ = v.gizmo_ ∧
    (SceneView.updateActive f v).rayQueries = v.rayQueries ∧
    (SceneView.updateActive f v).handle = v.handle := by
  unfold SceneView.updateActive
  dsimp only
  repeat' split
  all_goals exact ⟨rfl, rfl, rfl⟩

/-- The update of the screen rectangle changes neither the selection nor the
query log nor the identity nor the activity flag of the view. -/
theorem updateRect_keeps (f : WindowFrame) (v : SceneView) :
    (SceneView.updateRect f v).gizmo_ = v.gizmo_ ∧
    (SceneView.updateRect f v).rayQueries = v.rayQueries ∧
    (SceneView.updateRect f v).handle = v.handle ∧
    (SceneView.updateRect f v).isActive_ = v.isActive_ := by
  unfold SceneView.updateRect SceneView.SetScreenRect Gizmo.ManipulateSelection
  dsimp only
  repeat' split
  all_goals exact ⟨rfl, rfl, rfl, rfl⟩

/-- The selection, query log and identity after the handling of the hovered
scene image. -/
theorem handleHover_result (f : WindowFrame) (v : SceneView) :
    (SceneView.handleHover f v).rayQueries =
      v.rayQueries ++ (if (f.itemHovered && !f.gizmoActive && f.leftButtonPress) = true then
        (if f.triangleHit.isNone then [RayQueryLevel.RAY_TRIANGLE, RayQueryLevel.RAY_OBB]
         else [RayQueryLevel.RAY_TRIANGLE])
        else []) ∧
    (SceneView.handleHover f v).gizmo_ =
      (if (f.itemHovered && !f.gizmoActive && f.leftButtonPress) = true then
        (match f.hit with
         | some clickNode =>
           if f.ctrlDown then v.gizmo_.ToggleSelection clickNode
           else { nodeSelection_ := [clickNode] }
         | none => { nodeSelection_ := [] })
       else v.gizmo_) ∧
    (SceneView.handleHover f v).handle = v.handle := by
  unfold SceneView.handleHover
  cases hh : f.itemHovered with
  | false => simp
  | true =>
    cases hg : f.gizmoActive with
    | true => simp
    | false =>
      cases hp : f.leftButtonPress with
      | false => simp
      | true =>
        simp only [Bool.not_false, Bool.and_self, if_true]
        exact pickNode_result f { v with windowFlags_ := ImGuiWindowFlags_NoMove }

/-- The context menu changes neither the selection nor the query log nor the
identity nor the activity flag of the view. -/
theorem contextMenu_keeps (S : SceneEngine) (f : WindowFrame) (v : SceneView) :
    (SceneView.contextMenu S f v).gizmo_ = v.gizmo_ ∧
    (SceneView.contextMenu S f v).rayQueries = v.rayQueries ∧
    (SceneView.contextMenu S f v).handle = v.handle ∧
    (SceneView.contextMenu S f v).isActive_ = v.isActive_ := by
  unfold SceneView.contextMenu
  cases f.popupOpen with
  | false => exact ⟨rfl, rfl, rfl, rfl⟩
  | true =>
    cases f.menuSettings <;> cases f.menuSave
    · exact ⟨rfl, rfl, rfl, rfl⟩
    · exact SaveScene_keeps S _ "" v
    · exact ⟨rfl, rfl, rfl, rfl⟩
    · exact SaveScene_keeps S _ "" { v with settingsOpen_ := true }

/-- The selection, the query log and the identity of a view after
`RenderWindow`. -/
theorem RenderWindow_result (S : SceneEngine) (f : WindowFrame) (v : SceneView) :
    (SceneView.RenderWindow S f v).2.rayQueries =
      v.rayQueries ++ (if f.click = true then
        (if f.triangleHit.isNone then [RayQueryLevel.RAY_TRIANGLE, RayQueryLevel.RAY_OBB]
         else [RayQueryLevel.RAY_TRIANGLE])
        else []) ∧
    (SceneView.RenderWindow S f v).2.gizmo_ =
      (if f.click = true then
        (match f.hit with
         | some clickNode =>
           if f.ctrlDown then v.gizmo_.ToggleSelection clickNode
           else { nodeSelection_ := [clickNode] }
         | none => { nodeSelection_ := [] })
       else v.gizmo_) ∧
    (SceneView.RenderWindow S f v).2.handle = v.handle := by
  unfold SceneView.RenderWindow
  simp only
  have hs := RenderSettingsWindow_keeps f
  cases hd : f.dockVisible with
  | false =>
    have hc : f.click = false := by simp [WindowFrame.click, hd]
    simp only [Bool.false_eq_true, if_false, hc]
    rw [(hs _).1, (hs _).2.1, (hs _).2.2.1]
    cases f.mouseVisible <;> simp
  | true =>
    have hc : f.click = (f.itemHovered && !f.gizmoActive && f.leftButtonPress) := by
      simp [WindowFrame.click, hd]
    simp only [if_true, hc]
    rw [(hs _).1, (hs _).2.1, (hs _).2.2.1]
    unfold SceneView.renderDock
    rw [(contextMenu_keeps S f _).1, (contextMenu_keeps S f _).2.1,
      (contextMenu_keeps S f _).2.2.1]
    have hh := handleHover_result f (SceneView.updateRect f (SceneView.updateActive f
      (if f.mouseVisible = true then { v with lastMousePosition_ := f.mousePosition } else v)))
    rw [hh.1, hh.2.1, hh.2.2]
    rw [(updateRect_keeps f _).1, (updateRect_keeps f _).2.1, (updateRect_keeps f _).2.2.1]
    rw [(updateActive_keeps f _).1, (updateActive_keeps f _).2.1, (updateActive_keeps f _).2.2]
    cases f.mouseVisible <;> simp

/-- C12: click picking in `SceneView::RenderWindow`, with the gizmo selection
modelled as a set.  A click is handled when the dock is visible, the scene image
is hovered, the gizmo is not active and the left button was pressed; the node
hit is that of the triangle-level query and, without one, that of the
bounding-box query.  (1) The queries issued by one call are none without a click,
the triangle-level query alone when it hit something, and both otherwise, so the
bounding-box query is issued only when the triangle-level query returned no hit.
(2) A click that hits node `n` without Ctrl leaves the selection equal to
exactly `n`.  (3) With Ctrl it flips the selection state of `n` and keeps that
of every other node.  (4) A click for which both queries return no hit leaves
the selection empty.  (5) While the gizmo is active, and whenever no click is
handled, the selection is unchanged. -/
theorem RenderWindow_click_picking (S : SceneEngine) (f : WindowFrame) (v : SceneView) :
    ((SceneView.RenderWindow S f v).2.rayQueries =
        v.rayQueries ++ (if f.click = true then
          (if f.triangleHit.isNone then [RayQueryLevel.RAY_TRIANGLE, RayQueryLevel.RAY_OBB]
           else [RayQueryLevel.RAY_TRIANGLE])
          else [])) ∧
    (∀ issued, (SceneView.RenderWindow S f v).2.rayQueries = v.rayQueries ++ issued →
      RayQueryLevel.RAY_OBB ∈ issued → f.click = true ∧ f.triangleHit = none) ∧
    (∀ n, f.click = true → f.hit = some n → f.ctrlDown = false →
      (SceneView.RenderWindow S f v).2.gizmo_.nodeSelection_ = [n]) ∧
    (∀ n, f.click = true → f.hit = some n → f.ctrlDown = true →
      (SceneView.RenderWindow S f v).2.IsSelected n = !v.IsSelected n ∧
      ∀ m, m ≠ n → (SceneView.RenderWindow S f v).2.IsSelected m = v.IsSelected m) ∧
    (f.click = true → f.triangleHit = none → f.boxHit = none →
      (SceneView.RenderWindow S f v).2.gizmo_.nodeSelection_ = []) ∧
    (f.gizmoActive = true → (SceneView.RenderWindow S f v).2.gizmo_ = v.gizmo_) ∧
    (f.click = false → (SceneView.RenderWindow S f v).2.gizmo_ = v.gizmo_) := by
  obtain ⟨hq, hg, -⟩ := RenderWindow_result S f v
  refine ⟨hq, ?_, ?_, ?_, ?_, ?_, ?_⟩
  · intro issued hi hobb
    rw [hq] at hi
    have hiss := List.append_cancel_left hi
    rw [← hiss] at hobb
    by_cases hc : f.click = true
    · refine ⟨hc, ?_⟩
      cases ht : f.triangleHit with
      | none => rfl
      | some n => simp [hc, ht] at hobb
    · simp [hc] at hobb
  · intro n hc hh hctrl
    rw [hg]
    simp [hc, hh, hctrl]
  · intro n hc hh hctrl
    unfold SceneView.IsSelected
    rw [hg]
    simp only [hc, hh, hctrl, if_true]
    constructor
    · rw [ToggleSelection_isSelected]; simp
    · intro m hm
      rw [ToggleSelection_isSelected]; simp [hm]
  · intro hc ht hb
    rw [hg]
    have hh : f.hit = none := by simp [WindowFrame.hit, ht, hb]
    simp [hc, hh]
  · intro hga
    rw [hg]
    have hc : f.click = false := by simp [WindowFrame.click, hga]
    simp [hc]
  · intro hc
    rw [hg]
    simp [hc]

/-- Witness for C12: with the nodes 3 and 7 selected, a click without Ctrl whose
ray hits only the bounding box of node 7 issues both queries and leaves exactly
node 7 selected. -/
theorem RenderWindow_click_picking_witness :
    (SceneView.RenderWindow sampleSceneEngine clickFrame selectedView).2.rayQueries
      = [RayQueryLevel.RAY_TRIANGLE, RayQueryLevel.RAY_OBB] ∧
    (SceneView.RenderWindow sampleSceneEngine clickFrame selectedView).2.gizmo_.nodeSelection_
      = [7] :=
  ⟨(RenderWindow_click_picking sampleSceneEngine clickFrame selectedView).1.trans (by decide),
   (RenderWindow_click_picking sampleSceneEngine clickFrame selectedView).2.2.1 7
      (by decide) (by decide) (by decide)⟩

/-! ## Properties of `Editor::OnUpdate` -/

/-- The last active view of a list with one more view in front. -/
theorem lastActive_cons (v : SceneView) (l : List SceneView) :
    lastActive (v :: l) =
      (lastActive l).orElse (fun _ => if v.isActive_ then some v.handle else none) := by
  unfold lastActive
  by_cases hv : v.isActive_ = true
  · simp only [List.filter_cons, hv, if_true]
    cases hl : l.filter (fun w => w.isActive_) with
    | nil => simp
    | cons a t =>
      have hlast : (a :: t).getLast? = some ((a :: t).getLast (List.cons_ne_nil a t)) :=
        List.getLast?_eq_getLast _ _
      simp [List.getLast?_cons_cons, hlast]
  · simp only [List.filter_cons, hv, Bool.false_eq_true, if_false]
    cases (l.filter (fun w => w.isActive_)).getLast? <;> simp

/-- When a list has a last active view, it splits around that view and no later
view is active. -/
theorem lastActive_some (l : List SceneView) (h : Nat) (hl : lastActive l = some h) :
    ∃ (pre : List SceneView) (w : SceneView) (post : List SceneView),
      l = pre ++ w :: post ∧ w.handle = h ∧ w.isActive_ = true ∧
      ∀ u ∈ post, u.isActive_ = false := by
  induction l with
  | nil => simp [lastActive] at hl
  | cons v l ih =>
    rw [lastActive_cons] at hl
    cases hrest : lastActive l with
    | some k =>
      rw [hrest] at hl
      simp only [Option.orElse] at hl
      obtain ⟨pre, w, post, h1, h2, h3, h4⟩ := ih (hrest.trans hl)
      exact ⟨v :: pre, w, post, by rw [h1]; rfl, h2, h3, h4⟩
    | none =>
      rw [hrest] at hl
      simp only [Option.orElse] at hl
      have hnone : ∀ u ∈ l, u.isActive_ = false := by
        intro u hu
        by_contra hact
        have hmem : u ∈ l.filter (fun w => w.isActive_) :=
          List.mem_filter.mpr ⟨hu, by simpa using hact⟩
        unfold lastActive at hrest
        cases hg : (l.filter (fun w => w.isActive_)).getLast? with
        | none =>
          have := List.getLast?_eq_none_iff.mp hg
          rw [this] at hmem
          simp at hmem
        | some w => rw [hg] at hrest; simp at hrest
      by_cases hv : v.isActive_ = true
      · simp only [hv, if_true, Option.some.injEq] at hl
        exact ⟨[], v, l, rfl, hl, hv, hnone⟩
      · simp [hv] at hl

/-- A list has no last active view exactly when none of its views is active. -/
theorem lastActive_none (l : List SceneView) :
    lastActive l = none ↔ ∀ u ∈ l, u.isActive_ = false := by
  constructor
  · intro hl u hu
    by_contra hact
    have hmem : u ∈ l.filter (fun w => w.isActive_) :=
      List.mem_filter.mpr ⟨hu, by simpa using hact⟩
    unfold lastActive at hl
    cases hg : (l.filter (fun w => w.isActive_)).getLast? with
    | none =>
      have := List.getLast?_eq_none_iff.mp hg
      rw [this] at hmem
      simp at hmem
    | some w => rw [hg] at hl; simp at hl
  · intro hall
    unfold lastActive
    have : l.filter (fun w => w.isActive_) = [] := by
      apply List.filter_eq_nil_iff.mpr
      intro u hu
      simp [hall u hu]
    simp [this]

/-- The views kept from a list with one more view in front. -/
theorem keptViews_cons (S : SceneEngine) (windows : Nat → WindowFrame) (v : SceneView)
    (l : List SceneView) :
    Editor.keptViews S windows (v :: l) =
      (if (SceneView.RenderWindow S (windows v.handle) v).1 = true
        then [(SceneView.RenderWindow S (windows v.handle) v).2] else [])
      ++ Editor.keptViews S windows l := by
  unfold Editor.keptViews
  by_cases h : (SceneView.RenderWindow S (windows v.handle) v).1 = true
  · simp [List.filter_cons, h]
  · simp [List.filter_cons, h]

/-- The loop of `OnUpdate`: the views kept are appended to those already
visited, and the two pointers end at the last active view kept, if there is
one. -/
theorem renderViews_spec (S : SceneEngine) (windows : Nat → WindowFrame)
    (rest : List SceneView) (e : Editor) :
    (Editor.renderViews S windows rest e).sceneViews_
      = e.sceneViews_ ++ Editor.keptViews S windows rest ∧
    (Editor.renderViews S windows rest e).activeView_
      = (lastActive (Editor.keptViews S windows rest)).orElse (fun _ => e.activeView_) ∧
    (Editor.renderViews S windows rest e).lastActiveView_
      = (lastActive (Editor.keptViews S windows rest)).orElse
          (fun _ => e.lastActiveView_) ∧
    (Editor.renderViews S windows rest e).allocated = e.allocated := by
  induction rest generalizing e with
  | nil => simp [Editor.renderViews, Editor.keptViews, lastActive]
  | cons v rest ih =>
    rw [keptViews_cons]
    unfold Editor.renderViews
    generalize SceneView.RenderWindow S (windows v.handle) v = r
    by_cases hopen : r.1 = true
    · by_cases hact : r.2.isActive_ = true
      · simp only [hopen, hact, if_true]
        obtain ⟨h1, h2, h3, h4⟩ := ih
          { sceneViews_ := e.sceneViews_ ++ [r.2], lastActiveView_ := some r.2.handle,
            activeView_ := some r.2.handle, allocated := e.allocated }
        refine ⟨by rw [h1]; simp, ?_, ?_, h4⟩
        · rw [h2, List.singleton_append, lastActive_cons]
          cases lastActive (Editor.keptViews S windows rest) <;> simp [hact]
        · rw [h3, List.singleton_append, lastActive_cons]
          cases lastActive (Editor.keptViews S windows rest) <;> simp [hact]
      · simp only [hopen, hact, if_true, Bool.false_eq_true, if_false]
        obtain ⟨h1, h2, h3, h4⟩ := ih
          { sceneViews_ := e.sceneViews_ ++ [r.2], lastActiveView_ := e.lastActiveView_,
            activeView_ := e.activeView_, allocated := e.allocated }
        refine ⟨by rw [h1]; simp, ?_, ?_, h4⟩
        · rw [h2, List.singleton_append, lastActive_cons]
          cases lastActive (Editor.keptViews S windows rest) <;> simp [hact]
        · rw [h3, List.singleton_append, lastActive_cons]
          cases lastActive (Editor.keptViews S windows rest) <;> simp [hact]
    · simp only [hopen, Bool.false_eq_true, if_false, List.nil_append]
      exact ih e

/-- A click in the hierarchy tree keeps the identity of the view. -/
theorem treeClick_handle (components : Nat → List Nat) (click : TreeClick) (v : SceneView) :
    (SceneView.treeClick components click v).handle = v.handle := by
  unfold SceneView.treeClick
  cases click with
  | node node ctrl =>
    simp only
    rw [(ToggleSelection_keeps components node _).2.2]
    cases ctrl
    · exact (UnselectAll_keeps components v).2.2
    · rfl
  | component node component =>
    simp only [SceneView.SelectComponent]
    rw [(ToggleSelection_keeps components node _).2.2]
    exact (UnselectAll_keeps components v).2.2

/-- The hierarchy dock keeps the handles of the views, in order, and both
pointers of the editor. -/
theorem renderHierarchy_keeps (f : EditorFrame) (e : Editor) :
    (Editor.renderHierarchy f e).sceneViews_.map (fun w => w.handle)
      = e.sceneViews_.map (fun w => w.handle) ∧
    (Editor.renderHierarchy f e).lastActiveView_ = e.lastActiveView_ := by
  unfold Editor.renderHierarchy
  split
  · refine ⟨?_, rfl⟩
    simp only [List.map_map]
    apply List.map_congr_left
    intro w _
    simp only [Function.comp]
    split
    · have hfold : ∀ (clicks : List TreeClick) (u : SceneView),
          (clicks.foldl (fun w click => SceneView.treeClick f.components click w) u).handle
            = u.handle := by
        intro clicks
        induction clicks with
        | nil => intro u; rfl
        | cons c cs ih =>
          intro u
          simp only [List.foldl_cons]
          rw [ih, treeClick_handle]
      exact hfold _ _
    · rfl
  · exact ⟨rfl, rfl⟩

/-- The handles of the kept views are the handles of the views whose
`RenderWindow` returned true, in order. -/
theorem keptViews_handles (S : SceneEngine) (windows : Nat → WindowFrame)
    (views : List SceneView) :
    (Editor.keptViews S windows views).map (fun w => w.handle)
      = (views.filter (fun view =>
          (SceneView.RenderWindow S (windows view.handle) view).1)).map (fun w => w.handle) := by
  induction views with
  | nil => rfl
  | cons v l ih =>
    rw [keptViews_cons]
    by_cases hopen : (SceneView.RenderWindow S (windows v.handle) v).1 = true
    · simp only [hopen, if_true, List.singleton_append, List.map_cons, List.filter_cons, ih]
      rw [(RenderWindow_result S (windows v.handle) v).2.2]
    · simp only [hopen, Bool.false_eq_true, if_false, List.nil_append, List.filter_cons, ih]

/-- The call `CreateNewScene` leaves a non-null `lastActiveView_` as it is. -/
theorem CreateNewScene_lastActive (S : SceneEngine) (fuel : Nat) (path : String)
    (e e1 : Editor) (h : Editor.CreateNewScene S fuel path e = Outcome.returned e1)
    (hsome : e.lastActiveView_.isSome = true) : e1.lastActiveView_ = e.lastActiveView_ := by
  unfold Editor.CreateNewScene at h
  cases hi : findTitleIndex e.sceneViews_ fuel 1 with
  | none => simp [hi] at h
  | some index =>
    simp only [hi] at h
    split at h
    · simp only [Outcome.returned.injEq] at h
      rw [← h]
      cases hl : e.lastActiveView_ with
      | none => rw [hl] at hsome; simp at hsome
      | some k => simp
    · simp at h
    · simp at h
    · simp at h

/-- After the loop of `OnUpdate`, `IsActive` returns, and returns true only for
the scene of a kept view that is active and is the one `activeView_` points to. -/
theorem IsActive_of_lastActive (e : Editor) (hact : e.activeView_ = lastActive e.sceneViews_)
    (scene : Option SceneRef) :
    ∃ b, Editor.IsActive e scene = Outcome.returned b ∧
      (b = true → scene ≠ none ∧ ∃ w ∈ e.sceneViews_,
        e.activeView_ = some w.handle ∧ w.isActive_ = true ∧ scene = some w.scene_) := by
  unfold Editor.IsActive
  cases hs : scene with
  | none => exact ⟨false, by simp, by simp⟩
  | some sc =>
    cases ha : e.activeView_ with
    | none => exact ⟨false, by simp, by simp⟩
    | some h =>
      simp only [Option.isNone_some, Bool.or_self, Bool.false_eq_true, if_false]
      rw [ha] at hact
      obtain ⟨pre, w, post, hsplit, hw, -, -⟩ := lastActive_some _ h hact.symm
      have hwmem : w ∈ e.sceneViews_ := by rw [hsplit]; simp
      cases hf : e.sceneViews_.find? (fun view => some view.handle == some h) with
      | none =>
        have := List.find?_eq_none.mp hf w hwmem
        simp [hw] at this
      | some u =>
        have hu := List.find?_some hf
        have humem := List.mem_of_find?_eq_some hf
        have huh : u.handle = h := by simpa using hu
        refine ⟨_, rfl, ?_⟩
        intro hb
        simp only [Bool.and_eq_true, beq_iff_eq, Option.some.injEq] at hb
        exact ⟨by simp, u, humem, by rw [huh], hb.2, by rw [hb.1]⟩

/-- C11: `Editor::OnUpdate`, for a run in which the menu bar returns and leaves
the editor `e1` (`e1` is `e` unless "New Scene" was chosen).  Let `before` be the
views when the loop starts: the views of `e1`, in order, after the clicks in the
hierarchy dock.  The call returns an editor `e2` such that: (1) `sceneViews_`
holds exactly the views of `before` whose `RenderWindow` returned true, as
`RenderWindow` left them and in their previous order; (2) when `activeView_` is
not null it is a view of `sceneViews_` with `isActive_` set after which no view
of the list is active, and it is null exactly when no view of `sceneViews_` is
active; (3) `lastActiveView_` is `activeView_` when that is not null and is
otherwise the pointer the menu bar left, which is the old one whenever "New
Scene" was not chosen or the old pointer was not null; (4) `IsActive(scene)`
returns, and returns true only if `scene` is not null and is the scene of a
view of `sceneViews_` that `activeView_` points to and that has `isActive_`
set. -/
theorem OnUpdate_arbitrates (S : SceneEngine) (fuel : Nat) (f : EditorFrame)
    (e e1 : Editor) (hmenu : Editor.RenderMenuBar S fuel f e = Outcome.returned e1) :
    ∃ e2, Editor.OnUpdate S fuel f e = Outcome.returned e2 ∧
      e2.sceneViews_ = Editor.keptViews S f.windows (Editor.renderHierarchy f e1).sceneViews_ ∧
      e2.sceneViews_.map (fun w => w.handle) =
        ((Editor.renderHierarchy f e1).sceneViews_.filter (fun view =>
          (SceneView.RenderWindow S (f.windows view.handle) view).1)).map
            (fun w => w.handle) ∧
      (Editor.renderHierarchy f e1).sceneViews_.map (fun w => w.handle)
        = e1.sceneViews_.map (fun w => w.handle) ∧
      (f.menuNewScene = false → e1 = e) ∧
      (∀ h, e2.activeView_ = some h →
        ∃ (pre : List SceneView) (w : SceneView) (post : List SceneView),
          e2.sceneViews_ = pre ++ w :: post ∧ w.handle = h ∧ w.isActive_ = true ∧
          ∀ u ∈ post, u.isActive_ = false) ∧
      (e2.activeView_ = none ↔ ∀ u ∈ e2.sceneViews_, u.isActive_ = false) ∧
      (e2.lastActiveView_ =
        if e2.activeView_.isSome = true then e2.activeView_ else e1.lastActiveView_) ∧
      ((f.menuNewScene = false ∨ e.lastActiveView_.isSome = true) →
        e1.lastActiveView_ = e.lastActiveView_) ∧
      (∀ scene, ∃ b, Editor.IsActive e2 scene = Outcome.returned b ∧
        (b = true → scene ≠ none ∧ ∃ w ∈ e2.sceneViews_,
          e2.activeView_ = some w.handle ∧ w.isActive_ = true ∧ scene = some w.scene_)) := by
  obtain ⟨h1, h2, h3, -⟩ := renderViews_spec S f.windows
    (Editor.renderHierarchy f e1).sceneViews_
    { Editor.renderHierarchy f e1 with activeView_ := none, sceneViews_ := [] }
  simp only [List.nil_append] at h1
  have hact : (Editor.renderViews S f.windows (Editor.renderHierarchy f e1).sceneViews_
      { Editor.renderHierarchy f e1 with activeView_ := none, sceneViews_ := [] }).activeView_
      = lastActive (Editor.keptViews S f.windows (Editor.renderHierarchy f e1).sceneViews_) := by
    rw [h2]
    cases lastActive (Editor.keptViews S f.windows (Editor.renderHierarchy f e1).sceneViews_)
      <;> rfl
  refine ⟨_, ?_, h1, ?_, (renderHierarchy_keeps f e1).1, ?_, ?_, ?_, ?_, ?_, ?_⟩
  · unfold Editor.OnUpdate
    rw [hmenu]
  · rw [h1]
    exact keptViews_handles S f.windows _
  · intro hno
    unfold Editor.RenderMenuBar at hmenu
    simp only [hno, Bool.false_eq_true, if_false, Outcome.returned.injEq] at hmenu
    exact hmenu.symm
  · intro h hh
    rw [hact] at hh
    rw [h1]
    exact lastActive_some _ h hh
  · rw [hact, h1]
    exact lastActive_none _
  · rw [h3, hact]
    cases lastActive (Editor.keptViews S f.windows (Editor.renderHierarchy f e1).sceneViews_)
    · simp [Option.orElse, (renderHierarchy_keeps f e1).2]
    · simp [Option.orElse]
  · intro hcond
    unfold Editor.RenderMenuBar at hmenu
    cases hnew : f.menuNewScene with
    | false =>
      simp only [hnew, Bool.false_eq_true, if_false, Outcome.returned.injEq] at hmenu
      rw [hmenu]
    | true =>
      simp only [hnew, if_true] at hmenu
      rcases hcond with hc | hc
      · rw [hnew] at hc; exact Bool.noConfusion hc
      · exact CreateNewScene_lastActive S fuel "" e e1 hmenu hc
  · intro scene
    apply IsActive_of_lastActive
    rw [hact, h1]

/-- Witness for C11: in the sample editor the view with handle 0 is closed and
the view with handle 1 is clicked; afterwards only the latter is left and it is
the active view. -/
theorem OnUpdate_arbitrates_witness :
    ∃ e2, Editor.OnUpdate sampleSceneEngine 3 sampleEditorFrame sampleEditor
        = Outcome.returned e2 ∧
      e2.sceneViews_.map (fun w => w.handle) = [1] ∧
      (e2.activeView_ = none ↔ ∀ u ∈ e2.sceneViews_, u.isActive_ = false) := by
  obtain ⟨e2, h1, -, h3, -, -, -, h7, -⟩ :=
    OnUpdate_arbitrates sampleSceneEngine 3 sampleEditorFrame sampleEditor sampleEditor rfl
  exact ⟨e2, h1, h3.trans (by decide), h7⟩

/-- After `CreateNewScene` the pointer `lastActiveView_` is not null. -/
theorem CreateNewScene_lastActive_isSome (S : SceneEngine) (fuel : Nat) (path : String)
    (e e1 : Editor) (h : Editor.CreateNewScene S fuel path e = Outcome.returned e1) :
    e1.lastActiveView_.isSome = true := by
  unfold Editor.CreateNewScene at h
  cases hi : findTitleIndex e.sceneViews_ fuel 1 with
  | none => simp [hi] at h
  | some index =>
    simp only [hi] at h
    split at h
    · simp only [Outcome.returned.injEq] at h
      rw [← h]
      cases hl : e.lastActiveView_ <;> simp
    · simp at h
    · simp at h
    · simp at h

/-- The pointer `lastActiveView_` is not null once `Start` has returned, and
`OnUpdate` keeps it so: every call of `OnUpdate` finds it not null. -/
theorem lastActiveView_never_null (S : SceneEngine) (fuel : Nat) :
    (∀ e, Editor.Start S fuel = Outcome.returned e → e.lastActiveView_.isSome = true) ∧
    (∀ (f : EditorFrame) (e e2 : Editor), e.lastActiveView_.isSome = true →
      Editor.OnUpdate S fuel f e = Outcome.returned e2 → e2.lastActiveView_.isSome = true) := by
  constructor
  · intro e h
    exact CreateNewScene_lastActive_isSome S fuel "" _ e h
  · intro f e e2 hsome h
    unfold Editor.OnUpdate at h
    cases hm : Editor.RenderMenuBar S fuel f e with
    | returned e1 =>
      rw [hm] at h
      simp only [Outcome.returned.injEq] at h
      have he1 : e1.lastActiveView_.isSome = true := by
        unfold Editor.RenderMenuBar at hm
        cases hnew : f.menuNewScene with
        | false =>
          simp only [hnew, Bool.false_eq_true, if_false, Outcome.returned.injEq] at hm
          rw [← hm]; exact hsome
        | true =>
          simp only [hnew, if_true] at hm
          exact CreateNewScene_lastActive_isSome S fuel "" e e1 hm
      obtain ⟨-, -, h3, -⟩ := renderViews_spec S f.windows
        (Editor.renderHierarchy f e1).sceneViews_
        { Editor.renderHierarchy f e1 with activeView_ := none, sceneViews_ := [] }
      rw [← h, h3]
      cases lastActive (Editor.keptViews S f.windows (Editor.renderHierarchy f e1).sceneViews_)
      · simp only [Option.orElse]
        rw [(renderHierarchy_keeps f e1).2]
        exact he1
      · simp [Option.orElse]
    | assertFailed => rw [hm] at h; simp at h
    | outOfFuel => rw [hm] at h; simp at h
    | nullDereference => rw [hm] at h; simp at h

/-! ## Properties of `UIEditor::SaveFileUI` -/

/-- After unlinking the node at `el` no node of the document has that address,
and every node left was there before. -/
theorem unlinkNode_nodes (el : Nat) (t : XMLNodes) :
    ∀ x ∈ (unlinkNode el t).nodes, x.ptr ≠ el ∧ x ∈ t.nodes := by
  induction t with
  | nil => intro x hx; simp [unlinkNode, XMLNodes.nodes] at hx
  | node d children siblings ihc ihs =>
    intro x hx
    by_cases hd : d.ptr = el
    · simp only [unlinkNode, hd, if_true] at hx
      have := ihs x hx
      exact ⟨this.1, by simp [XMLNodes.nodes, this.2]⟩
    · simp only [unlinkNode, hd, if_false, XMLNodes.nodes, List.mem_cons,
        List.mem_append] at hx
      rcases hx with hx | hx | hx
      · subst hx
        exact ⟨hd, by simp [XMLNodes.nodes]⟩
      · have := ihc x hx
        exact ⟨this.1, by simp [XMLNodes.nodes, this.2]⟩
      · have := ihs x hx
        exact ⟨this.1, by simp [XMLNodes.nodes, this.2]⟩

/-- When the first loop of `SaveFileUI` ends without touching freed memory, the
document it leaves holds only nodes it held before and none of the nodes of the
result set. -/
theorem removeLoop_done (result : List Nat) (doc doc1 : XMLNodes)
    (h : forEachResult (fun el d => RemoveChild el d) result doc = XMLOutcome.done doc1) :
    (∀ x ∈ doc1.nodes, x ∈ doc.nodes) ∧ (∀ el ∈ result, doc1.isLive el = false) := by
  induction result generalizing doc with
  | nil =>
    simp only [forEachResult, XMLOutcome.done.injEq] at h
    subst h
    exact ⟨fun x hx => hx, fun el hel => by simp at hel⟩
  | cons r rest ih =>
    simp only [forEachResult, RemoveChild] at h
    by_cases hlive : doc.isLive r = true
    · simp only [hlive, if_true] at h
      obtain ⟨hsub, hrest⟩ := ih (unlinkNode r doc) h
      refine ⟨fun x hx => (unlinkNode_nodes r doc x (hsub x hx)).2, ?_⟩
      intro el hel
      rcases List.mem_cons.mp hel with he | he
      · subst he
        by_contra hl
        have hl1 : doc1.isLive el = true := by simpa using hl
        obtain ⟨x, hx, hxp⟩ := List.any_eq_true.mp hl1
        have := (unlinkNode_nodes el doc x (hsub x hx)).1
        exact this (by simpa using hxp)
      · exact hrest el he
    · simp [hlive] at h

/-- Whenever the serialised tree holds an internal element, `SaveFileUI` on an
XML path uses a destroyed node; without one it writes the serialised document
as it is and returns true. -/
theorem SaveFileUI_defined (saved : SavedXML) (file_path : String) (u : UIEditor)
    (hx : EndsWith file_path ".xml" false = true) (hok : saved.ok = true) :
    (SelectInternal saved.document = [] →
      UIEditor.SaveFileUI saved file_path u = XMLOutcome.done
        (true, { u with written := u.written ++ [(file_path, saved.document)],
                        currentFilePath_ := file_path })) ∧
    (SelectInternal saved.document ≠ [] →
      UIEditor.SaveFileUI saved file_path u = XMLOutcome.useAfterFree) := by
  constructor
  · intro hnil
    simp [UIEditor.SaveFileUI, hx, hok, hnil, forEachResult]
  · intro hne
    unfold UIEditor.SaveFileUI
    simp only [hx, hok, if_true]
    cases hloop : forEachResult (fun el d => RemoveChild el d)
        (SelectInternal saved.document) saved.document with
    | useAfterFree => rfl
    | done doc1 =>
      simp only
      obtain ⟨-, hgone⟩ := removeLoop_done _ _ _ hloop
      cases hres : SelectInternal saved.document with
      | nil => exact absurd hres hne
      | cons r rest =>
        have hr : doc1.isLive r = false := hgone r (by rw [hres]; simp)
        simp [forEachResult, RemoveAttribute, hr]

end Urho3D
